import Mathlib

/-!
# Gosu window shim: display queries, construction, teardown and the event loop

A shallow embedding of `src/GosuImpl/Window.cpp`.

* The native layer (SDL) and the collaborators (`Graphics`, `Input`, the clock, `sleep`, the
  overridable hooks `update`, `draw`, `buttonDown`, `buttonUp`) are not part of the file.  They
  appear here as parameters: every call made by the code is recorded, in order, in a trace, and
  the answers of the outside world are taken from an environment.
* The platform event queue is a FIFO list.  Code outside `show` touches it only by appending
  (that is what `SDL_PushEvent`, hence `close()`, does); `SDL_PollEvent` removes the head.
* `unsigned` values are natural numbers, `int` values are integers, clock readings are integers
  and the `double` update interval is a rational number (comparing an integer below `2^53` with a
  finite double and subtracting it from a larger one below `2^53` are exact, so the rational
  model agrees with the machine there).
-/

namespace Gosu

set_option linter.dupNamespace false

/-! ## Display queries (lines 15-34) -/

/-- The fields of the native `SDL_DisplayMode` record that the code reads: width and height,
both `int`. -/
structure SDL_DisplayMode where
  w : Int
  h : Int
deriving DecidableEq, Repr

/-- Process-wide state of the display query: the global `desktopDisplayMode` of line 15 together
with a counter of the platform queries issued so far. -/
structure Display where
  desktopDisplayMode : SDL_DisplayMode
  queries : Nat
deriving DecidableEq, Repr

/-- The global as initialised at line 15: `{ 0, 0 }`, no query issued yet. -/
def Display.initial : Display := { desktopDisplayMode := { w := 0, h := 0 }, queries := 0 }

/-- The answer of the platform to a desktop-display-mode query: given the number of earlier
queries and the current contents of the record, the contents after the call (a failed query
leaves the record as it was). -/
abbrev Platform := Nat → SDL_DisplayMode → SDL_DisplayMode

/-- The native call `SDL_GetDesktopDisplayMode(0, &desktopDisplayMode)`. -/
def SDL_GetDesktopDisplayMode (p : Platform) (d : Display) : Display :=
  { desktopDisplayMode := p d.queries d.desktopDisplayMode, queries := d.queries + 1 }

/-- Conversion of an `int` to the 32-bit `unsigned` return type. -/
def toUnsigned (x : Int) : Nat := (x % 4294967296).toNat

/-- `Gosu::screenWidth` (lines 18-25). -/
def screenWidth (p : Platform) (d : Display) : Nat × Display :=
  let d1 := if d.desktopDisplayMode.w = 0 then SDL_GetDesktopDisplayMode p d else d
  (toUnsigned d1.desktopDisplayMode.w, d1)

/-- `Gosu::screenHeight` (lines 27-34). -/
def screenHeight (p : Platform) (d : Display) : Nat × Display :=
  let d1 := if d.desktopDisplayMode.h = 0 then SDL_GetDesktopDisplayMode p d else d
  (toUnsigned d1.desktopDisplayMode.h, d1)

/-- Which of the two display queries is called. -/
inductive ScreenQuery
  | width
  | height
deriving DecidableEq, Repr

/-- One call of `screenWidth()` or `screenHeight()`. -/
def screenCall (p : Platform) : ScreenQuery → Display → Nat × Display
  | .width, d => screenWidth p d
  | .height, d => screenHeight p d

/-- A sequence of calls of `screenWidth()` and `screenHeight()`: the values returned, in order,
and the display state afterwards. -/
def screenCalls (p : Platform) : List ScreenQuery → Display → List Nat × Display
  | [], d => ([], d)
  | q :: qs, d =>
    let r := screenCall p q d
    let rs := screenCalls p qs r.2
    (r.1 :: rs.1, rs.2)

/-- The component of a display mode that a query returns, as `unsigned`. -/
def component (m : SDL_DisplayMode) : ScreenQuery → Nat
  | .width => toUnsigned m.w
  | .height => toUnsigned m.h

/-- The caching property as the specification words it: whichever query is called first, it
queries the platform once, and every later sequence of calls returns the components of the pair
cached by the first call without another query. -/
def CachedAfterFirstCall (p : Platform) : Prop :=
  ∀ (first : ScreenQuery) (later : List ScreenQuery),
    (screenCall p first Display.initial).2.queries = 1 ∧
    screenCalls p later (screenCall p first Display.initial).2 =
      (later.map (component (screenCall p first Display.initial).2.desktopDisplayMode),
        (screenCall p first Display.initial).2)

/-- A platform whose first query fails (the video subsystem is not initialised yet, the record
is left untouched) and which reports a 1920 x 1080 desktop afterwards. -/
def coldPlatform : Platform := fun n m => if n = 0 then m else { w := 1920, h := 1080 }

/-- A platform that always reports a 1920 x 1080 desktop. -/
def hdPlatform : Platform := fun _ _ => { w := 1920, h := 1080 }

/-! ## The event loop (lines 101-138) -/

/-- A native window or GL-context handle. -/
abbrev Handle := Nat

/-- A platform event: its `type` tag and the rest of the record, which `show` never inspects. -/
structure SDL_Event where
  type : Nat
  data : Nat
deriving DecidableEq, Repr

/-- The SDL2 tag of a quit event (`SDL_events.h`); its numeric value plays no role below. -/
def SDL_QUIT : Nat := 256

/-- The fields of `Window::Impl` (lines 36-44) that the code reads back: the two native handles
and the update interval.  The owned `Graphics` and `Input` objects live in the outside world. -/
structure Impl where
  window : Handle
  context : Handle
  updateInterval : ℚ
deriving DecidableEq, Repr

/-- A call made by `show`, with the arguments passed at the call site and the value returned. -/
inductive Call
  | milliseconds (result : Int)
  | SDL_PollEvent (result : Option SDL_Event)
  | feedSDLEvent (e : SDL_Event)
  | inputUpdate
  | update
  | graphicsBegin (result : Bool)
  | draw
  | graphicsEnd
  | SDL_GL_SwapWindow (window : Handle)
  | sleep (duration : ℚ)
deriving DecidableEq, Repr

/-- The outside world as seen from `show`, over a state `σ` that holds everything the code does
not own (application, `Input`, `Graphics`, platform, clock).  Every collaborator call is a state
transformer; the calls that can run user code or gather platform input also say which events
they append to the platform queue. -/
structure Env (σ : Type) where
  milliseconds : σ → Int × σ
  pump : σ → List SDL_Event × σ
  feedSDLEvent : SDL_Event → σ → List SDL_Event × σ
  inputUpdate : σ → List SDL_Event × σ
  update : σ → List SDL_Event × σ
  graphicsBegin : σ → Bool × σ
  draw : σ → List SDL_Event × σ
  graphicsEnd : σ → σ
  swapWindow : Handle → σ → σ
  sleep : ℚ → σ → σ

/-- The state threaded through `show`: the outside world, the platform event queue (head is the
next event polled), the log of every event appended to the queue so far, and the trace of the
calls made so far. -/
structure World (σ : Type) where
  ext : σ
  queue : List SDL_Event
  pushed : List SDL_Event
  trace : List Call
deriving DecidableEq, Repr

/-- Append a call to the trace. -/
def World.record {σ : Type} (w : World σ) (c : Call) : World σ :=
  { w with trace := w.trace ++ [c] }

/-- Append events at the tail of the platform queue (`SDL_PushEvent`, or the platform while the
queue is pumped). -/
def World.enqueue {σ : Type} (w : World σ) (es : List SDL_Event) : World σ :=
  { w with queue := w.queue ++ es, pushed := w.pushed ++ es }

/-- `Gosu::Window::close` (lines 133-138): push one event whose `type` is `SDL_QUIT`; the rest
of the record is left uninitialised by the code, hence arbitrary. -/
def Window.close {σ : Type} (uninitialised : Nat) (w : World σ) : World σ :=
  w.enqueue [{ type := SDL_QUIT, data := uninitialised }]

/-- The call `milliseconds()`. -/
def milliseconds {σ : Type} (env : Env σ) (w : World σ) : Int × World σ :=
  let r := env.milliseconds w.ext
  (r.1, ({ w with ext := r.2 }).record (.milliseconds r.1))

/-- The call `SDL_PollEvent(&e)`: the platform delivers what it has gathered, then the head of the
queue, if any, is removed and returned. -/
def SDL_PollEvent {σ : Type} (env : Env σ) (w : World σ) : Option SDL_Event × World σ :=
  let r := env.pump w.ext
  let w1 := ({ w with ext := r.2 }).enqueue r.1
  match w1.queue with
  | [] => (none, w1.record (.SDL_PollEvent none))
  | e :: rest => (some e, ({ w1 with queue := rest }).record (.SDL_PollEvent (some e)))

/-- The call `input().feedSDLEvent(&e)` (line 111). -/
def feedSDLEvent {σ : Type} (env : Env σ) (e : SDL_Event) (w : World σ) : World σ :=
  let r := env.feedSDLEvent e w.ext
  (({ w with ext := r.2 }).record (.feedSDLEvent e)).enqueue r.1

/-- The call `input().update()` (line 114). -/
def inputUpdate {σ : Type} (env : Env σ) (w : World σ) : World σ :=
  let r := env.inputUpdate w.ext
  (({ w with ext := r.2 }).record .inputUpdate).enqueue r.1

/-- The call `update()` (line 116). -/
def update {σ : Type} (env : Env σ) (w : World σ) : World σ :=
  let r := env.update w.ext
  (({ w with ext := r.2 }).record .update).enqueue r.1

/-- The call `graphics().begin()` (line 118). -/
def graphicsBegin {σ : Type} (env : Env σ) (w : World σ) : Bool × World σ :=
  let r := env.graphicsBegin w.ext
  (r.1, ({ w with ext := r.2 }).record (.graphicsBegin r.1))

/-- The call `draw()` (line 119). -/
def draw {σ : Type} (env : Env σ) (w : World σ) : World σ :=
  let r := env.draw w.ext
  (({ w with ext := r.2 }).record .draw).enqueue r.1

/-- The call `graphics().end()` (line 120). -/
def graphicsEnd {σ : Type} (env : Env σ) (w : World σ) : World σ :=
  ({ w with ext := env.graphicsEnd w.ext }).record .graphicsEnd

/-- The call `SDL_GL_SwapWindow(pimpl->window)` (line 123). -/
def SDL_GL_SwapWindow {σ : Type} (env : Env σ) (window : Handle) (w : World σ) : World σ :=
  ({ w with ext := env.swapWindow window w.ext }).record (.SDL_GL_SwapWindow window)

/-- The call `sleep(...)` (line 128). -/
def sleep {σ : Type} (env : Env σ) (duration : ℚ) (w : World σ) : World σ :=
  ({ w with ext := env.sleep duration w.ext }).record (.sleep duration)

/-- How a stretch of the loop body ends: `returned` when the `return` of line 109 was executed,
`continues` when control fell through to the next statement, `starved` when the fuel given to
the model ran out inside the inner loop. -/
inductive Flow (σ : Type)
  | returned (w : World σ)
  | continues (w : World σ)
  | starved (w : World σ)
deriving DecidableEq, Repr

/-- The inner loop `while (SDL_PollEvent(&e)) ...` (lines 107-112), for at most `fuel` polls. -/
def pollLoop {σ : Type} (env : Env σ) : Nat → World σ → Flow σ
  | 0, w => .starved w
  | fuel + 1, w =>
    match SDL_PollEvent env w with
    | (none, w1) => .continues w1
    | (some e, w1) =>
      if e.type = SDL_QUIT then .returned w1
      else pollLoop env fuel (feedSDLEvent env e w1)

/-- Frame pacing (lines 126-129). -/
def pace {σ : Type} (env : Env σ) (self : Impl) (startTime : Int) (w : World σ) : World σ :=
  let r := milliseconds env w
  let frameTime := r.1 - startTime
  if 0 < frameTime ∧ (frameTime : ℚ) < self.updateInterval then
    sleep env (self.updateInterval - (frameTime : ℚ)) r.2
  else r.2

/-- Present and pace (lines 123-129). -/
def present {σ : Type} (env : Env σ) (self : Impl) (startTime : Int) (w : World σ) : World σ :=
  pace env self startTime (SDL_GL_SwapWindow env self.window w)

/-- The rest of the loop body once `draw()` has returned (lines 120-129). -/
def afterDraw {σ : Type} (env : Env σ) (self : Impl) (startTime : Int) (w : World σ) : World σ :=
  present env self startTime (graphicsEnd env w)

/-- The rest of the loop body once `update()` has returned (lines 118-129). -/
def afterUpdate {σ : Type} (env : Env σ) (self : Impl) (startTime : Int) (w : World σ) :
    World σ :=
  let r := graphicsBegin env w
  if r.1 then afterDraw env self startTime (draw env r.2)
  else present env self startTime r.2

/-- The rest of the loop body once `input().update()` has returned (lines 116-129). -/
def afterInputUpdate {σ : Type} (env : Env σ) (self : Impl) (startTime : Int) (w : World σ) :
    World σ :=
  afterUpdate env self startTime (update env w)

/-- The loop body after the inner loop (lines 114-129). -/
def frame {σ : Type} (env : Env σ) (self : Impl) (startTime : Int) (w : World σ) : World σ :=
  afterInputUpdate env self startTime (inputUpdate env w)

/-- The loop body from the inner loop on (lines 107-129). -/
def drainThenFrame {σ : Type} (env : Env σ) (self : Impl) (fuel : Nat) (startTime : Int)
    (w : World σ) : Flow σ :=
  match pollLoop env fuel w with
  | .returned w1 => .returned w1
  | .starved w1 => .starved w1
  | .continues w1 => .continues (frame env self startTime w1)

/-- One pass through the body of `while (true)` (lines 104-129). -/
def iteration {σ : Type} (env : Env σ) (self : Impl) (fuel : Nat) (w : World σ) : Flow σ :=
  let r := milliseconds env w
  drainThenFrame env self fuel r.1 r.2

/-- A point of a running `show()`: the loop head, and the places where control comes back to
`show` from code that may have called `close()`. -/
inductive Point
  | loopHead
  | polling (startTime : Int)
  | afterInputUpdate (startTime : Int)
  | afterUpdate (startTime : Int)
  | afterDraw (startTime : Int)
deriving DecidableEq, Repr

/-- The rest of the current iteration from a point. -/
def finishIteration {σ : Type} (env : Env σ) (self : Impl) (fuel : Nat) :
    Point → World σ → Flow σ
  | .loopHead, w => iteration env self fuel w
  | .polling t, w => drainThenFrame env self fuel t w
  | .afterInputUpdate t, w => .continues (afterInputUpdate env self t w)
  | .afterUpdate t, w => .continues (afterUpdate env self t w)
  | .afterDraw t, w => .continues (afterDraw env self t w)

/-- How a run of `show()` stands when the model stops: it has returned, or it is still running
because the fuel ran out. -/
inductive Outcome (σ : Type)
  | returned (w : World σ)
  | running (w : World σ)
deriving DecidableEq, Repr

/-- The world of an outcome. -/
def Outcome.world {σ : Type} : Outcome σ → World σ
  | .returned w => w
  | .running w => w

/-- `show()` resumed at a point of its run: the rest of the current iteration, then the loop
(lines 103-130), for at most `fuel` iterations of at most `fuel` polls each. -/
def Window.showFrom {σ : Type} (env : Env σ) (self : Impl) : Nat → Point → World σ → Outcome σ
  | 0, _, w => .running w
  | fuel + 1, pt, w =>
    match finishIteration env self fuel pt w with
    | .returned w1 => .returned w1
    | .starved w1 => .running w1
    | .continues w1 => Window.showFrom env self fuel .loopHead w1

/-- `Gosu::Window::show` (lines 101-131). -/
def Window.show {σ : Type} (env : Env σ) (self : Impl) (fuel : Nat) (w : World σ) : Outcome σ :=
  Window.showFrom env self fuel .loopHead w

/-! ### The shape of the traces

The order of the calls of one iteration, written out as lists; the theorems below compare the
traces produced by the code with these. -/

/-- The world of a flow. -/
def Flow.world {σ : Type} : Flow σ → World σ
  | .returned w => w
  | .continues w => w
  | .starved w => w

/-- The calls of a stretch of the inner loop that polls and feeds the given events in turn. -/
def drainCalls : List SDL_Event → List Call
  | [] => []
  | e :: es => .SDL_PollEvent (some e) :: .feedSDLEvent e :: drainCalls es

/-- The calls of frame pacing with the loop-head reading `startTime` and the reading `now`
taken after the swap: the clock read, then the sleep when there is one. -/
def paceCalls (updateInterval : ℚ) (startTime now : Int) : List Call :=
  .milliseconds now ::
    (if 0 < now - startTime ∧ ((now - startTime : Int) : ℚ) < updateInterval then
      [.sleep (updateInterval - ((now - startTime : Int) : ℚ))]
    else [])

/-- The calls from the swap on. -/
def presentCalls (self : Impl) (startTime now : Int) : List Call :=
  .SDL_GL_SwapWindow self.window :: paceCalls self.updateInterval startTime now

/-- The calls after `draw()` has returned. -/
def afterDrawCalls (self : Impl) (startTime now : Int) : List Call :=
  .graphicsEnd :: presentCalls self startTime now

/-- The calls after `update()` has returned, `ok` being the result of `begin()`. -/
def afterUpdateCalls (self : Impl) (startTime : Int) (ok : Bool) (now : Int) : List Call :=
  .graphicsBegin ok ::
    (if ok then .draw :: afterDrawCalls self startTime now else presentCalls self startTime now)

/-- The calls after `input().update()` has returned. -/
def afterInputUpdateCalls (self : Impl) (startTime : Int) (ok : Bool) (now : Int) :
    List Call :=
  .update :: afterUpdateCalls self startTime ok now

/-- The calls of the loop body after the inner loop. -/
def frameCalls (self : Impl) (startTime : Int) (ok : Bool) (now : Int) : List Call :=
  .inputUpdate :: afterInputUpdateCalls self startTime ok now

/-- The calls of one iteration that drains no quit event, in the order of section 4.5 of the
specification: clock read, the events fed one by one until the poll that finds the queue
empty, `Input::update`, `update`, `begin` (then `draw` and `end` when it succeeded), the swap,
the second clock read and the optional sleep. -/
def iterationCalls (window : Handle) (startTime : Int) (fed : List SDL_Event) (ok : Bool)
    (now : Int) (slept : Option ℚ) : List Call :=
  [.milliseconds startTime] ++ drainCalls fed ++ [.SDL_PollEvent none] ++
    [.inputUpdate, .update, .graphicsBegin ok] ++ (if ok then [.draw, .graphicsEnd] else []) ++
    [.SDL_GL_SwapWindow window, .milliseconds now] ++
    (match slept with
      | none => []
      | some d => [.sleep d])

/-- The calls that finish the current iteration from a point outside the inner loop, `ok`
being the result of `begin()` and `now` the clock reading after the swap; none at the loop
head or inside the inner loop. -/
def remainderCalls (self : Impl) (ok : Bool) (now : Int) : Point → List Call
  | .loopHead => []
  | .polling _ => []
  | .afterInputUpdate startTime => afterInputUpdateCalls self startTime ok now
  | .afterUpdate startTime => afterUpdateCalls self startTime ok now
  | .afterDraw startTime => afterDrawCalls self startTime now

/-- The clock read at the loop head that precedes the next run of the inner loop; absent when
the point is inside the inner loop already. -/
def loopHeadCalls (t : Int) : Point → List Call
  | .polling _ => []
  | _ => [.milliseconds t]

/-- The calls of a run: complete iterations one after the other, then the calls of the
iteration under way. -/
def runCalls (blocks : List (List Call)) (tail : List Call) : List Call :=
  blocks.foldr (fun blk rest => blk ++ rest) tail

/-- The list of calls is that of one complete iteration on the given window. -/
def IsIterationBlock (window : Handle) (blk : List Call) : Prop :=
  ∃ (startTime : Int) (fed : List SDL_Event) (ok : Bool) (now : Int) (slept : Option ℚ),
    blk = iterationCalls window startTime fed ok now slept

/-- The events passed to `Input::feedSDLEvent`, in order. -/
def fedEvents : List Call → List SDL_Event
  | [] => []
  | .feedSDLEvent e :: cs => e :: fedEvents cs
  | _ :: cs => fedEvents cs

/-- The durations passed to `sleep`, in order. -/
def sleeps : List Call → List ℚ
  | [] => []
  | .sleep d :: cs => d :: sleeps cs
  | _ :: cs => sleeps cs

/-- The clock readings, in order. -/
def clockReadings : List Call → List Int
  | [] => []
  | .milliseconds t :: cs => t :: clockReadings cs
  | _ :: cs => clockReadings cs

/-- The results of the calls of `begin()`, in order. -/
def begins : List Call → List Bool
  | [] => []
  | .graphicsBegin ok :: cs => ok :: begins cs
  | _ :: cs => begins cs

/-- The windows passed to `SDL_GL_SwapWindow`, in order. -/
def swaps : List Call → List Handle
  | [] => []
  | .SDL_GL_SwapWindow h :: cs => h :: swaps cs
  | _ :: cs => swaps cs

/-- Whether a call belongs to the inner loop: a poll or a feed. -/
def Call.isDrainCall : Call → Bool
  | .SDL_PollEvent _ => true
  | .feedSDLEvent _ => true
  | _ => false

/-- Whether a call is one of the steps after the inner loop: `Input::update`, `update`,
`begin`, `draw`, `end`, the swap or the sleep. -/
def Call.isFrameCall : Call → Bool
  | .inputUpdate => true
  | .update => true
  | .graphicsBegin _ => true
  | .draw => true
  | .graphicsEnd => true
  | .SDL_GL_SwapWindow _ => true
  | .sleep _ => true
  | _ => false

/-- The world `w1` comes from `w` by making the calls `new` and appending the events `arr` to
the queue, no event being polled. -/
def Grows {σ : Type} (w w1 : World σ) (new : List Call) (arr : List SDL_Event) : Prop :=
  w1.trace = w.trace ++ new ∧ w1.queue = w.queue ++ arr ∧ w1.pushed = w.pushed ++ arr

/-- What a stretch of the inner loop started in `w` has done when it ends in the given flow,
having fed the events `fed` while the events `arr` were appended to the queue: the calls made,
and the queue discipline (what was fed, then what is still queued, is what was queued, then
what arrived). -/
def Drained {σ : Type} (w : World σ) (fed arr : List SDL_Event) : Flow σ → Prop
  | .continues w1 =>
    w1.trace = w.trace ++ drainCalls fed ++ [.SDL_PollEvent none] ∧ w1.queue = [] ∧
      fed = w.queue ++ arr ∧ w1.pushed = w.pushed ++ arr
  | .returned w1 =>
    ∃ q : SDL_Event, q.type = SDL_QUIT ∧
      w1.trace = w.trace ++ drainCalls fed ++ [.SDL_PollEvent (some q)] ∧
      fed ++ q :: w1.queue = w.queue ++ arr ∧ w1.pushed = w.pushed ++ arr
  | .starved w1 =>
    w1.trace = w.trace ++ drainCalls fed ∧ fed ++ w1.queue = w.queue ++ arr ∧
      w1.pushed = w.pushed ++ arr

/-! ### Sample inputs -/

/-- A sample outside world over a clock value: reading the clock advances it by `tick`
milliseconds, sleeping advances it by the whole milliseconds slept, `begin()` answers `ok`,
nobody pushes events. -/
def tickingEnv (tick : Int) (ok : Bool) : Env Int where
  milliseconds := fun s => (s, s + tick)
  pump := fun s => ([], s)
  feedSDLEvent := fun _ s => ([], s)
  inputUpdate := fun s => ([], s)
  update := fun s => ([], s)
  graphicsBegin := fun s => (ok, s)
  draw := fun s => ([], s)
  graphicsEnd := fun s => s
  swapWindow := fun _ s => s
  sleep := fun d s => s + d.floor

/-- A sample outside world in which `update()` calls `close()`. -/
def closingEnv : Env Int where
  milliseconds := fun s => (s, s + 5)
  pump := fun s => ([], s)
  feedSDLEvent := fun _ s => ([], s)
  inputUpdate := fun s => ([], s)
  update := fun s => ([{ type := SDL_QUIT, data := 0 }], s)
  graphicsBegin := fun s => (true, s)
  draw := fun s => ([], s)
  graphicsEnd := fun s => s
  swapWindow := fun _ s => s
  sleep := fun d s => s + d.floor

/-- A sample window with a 16 ms update interval. -/
def sampleImpl : Impl := { window := 1, context := 2, updateInterval := 16 }

/-- A sample window with a zero update interval. -/
def unpacedImpl : Impl := { window := 1, context := 2, updateInterval := 0 }

/-- A sample key event. -/
def keyEvent : SDL_Event := { type := 768, data := 4 }

/-- A sample mouse event. -/
def mouseEvent : SDL_Event := { type := 1024, data := 9 }

/-- A sample quit event. -/
def quitEvent : SDL_Event := { type := SDL_QUIT, data := 0 }

/-- A sample world with the given clock and queue, nothing logged yet. -/
def sampleWorld (clock : Int) (queue : List SDL_Event) : World Int :=
  { ext := clock, queue := queue, pushed := [], trace := [] }

/-- The sample world once the clock was read at 100 and the inner loop has fed the one key
event queued and found the queue empty. -/
def sampleDrained (tick : Int) : World Int :=
  { ext := 100 + tick, queue := [], pushed := [],
    trace := [.milliseconds 100, .SDL_PollEvent (some keyEvent), .feedSDLEvent keyEvent,
      .SDL_PollEvent none] }

/-! ## Construction and teardown (lines 46-83) -/

/-- Flag of the SDL2 video subsystem (`SDL.h`). -/
def SDL_INIT_VIDEO : Nat := 32

/-- SDL2 window position constant (`SDL_video.h`). -/
def SDL_WINDOWPOS_CENTERED : Nat := 805240832

/-- SDL2 window flag (`SDL_video.h`). -/
def SDL_WINDOW_OPENGL : Nat := 2

/-- SDL2 window flag (`SDL_video.h`). -/
def SDL_WINDOW_ALLOW_HIGHDPI : Nat := 8192

/-- SDL2 window flag (`SDL_video.h`). -/
def SDL_WINDOW_FULLSCREEN_DESKTOP : Nat := 4097

/-- A call made by the constructor or the destructor, with the arguments passed at the call
site and, where the code keeps it, the value returned. -/
inductive NativeCall
  | SDL_Init (flags : Nat) (result : Int)
  | SDL_CreateWindow (title : String) (x y w h flags : Nat) (result : Handle)
  | SDL_GL_CreateContext (window : Handle) (result : Handle)
  | SDL_GL_MakeCurrent (window context : Handle)
  | SDL_GL_SetSwapInterval (interval : Int)
  | newGraphics (physWidth physHeight : Nat) (fullscreen : Bool)
  | setResolution (virtualWidth virtualHeight : Nat)
  | newInput
  | setOnButtonDown
  | setOnButtonUp
  | SDL_GL_DeleteContext (context : Handle)
  | SDL_DestroyWindow (window : Handle)
  | SDL_QuitSubSystem (flags : Nat)
deriving DecidableEq, Repr

/-- The answers of the native layer during construction: the result of `SDL_Init`, the window
handle and the context handle handed out. -/
structure Native where
  initResult : Int
  windowHandle : Handle
  contextHandle : Handle
deriving DecidableEq, Repr

/-- What a constructor call leaves behind: the window (or the error thrown), the display cache
and the calls made. -/
structure Constructed where
  result : Except String Impl
  display : Display
  calls : List NativeCall

/-- `Gosu::Window::Window` (lines 46-75). -/
def Window.Window (sdl : Native) (p : Platform) (d : Display) (width height : Nat)
    (fullscreen : Bool) (updateInterval : ℚ) : Constructed :=
  if sdl.initResult < 0 then
    { result := .error "Failed to initialize SDL Video"
      display := d
      calls := [.SDL_Init SDL_INIT_VIDEO sdl.initResult] }
  else
    let actual : (Nat × Nat) × Display :=
      if fullscreen then
        let rw := screenWidth p d
        let rh := screenHeight p rw.2
        ((rw.1, rh.1), rh.2)
      else ((width, height), d)
    let actualWidth := actual.1.1
    let actualHeight := actual.1.2
    { result := .ok { window := sdl.windowHandle
                      context := sdl.contextHandle
                      updateInterval := updateInterval }
      display := actual.2
      calls :=
        [ .SDL_Init SDL_INIT_VIDEO sdl.initResult,
          .SDL_CreateWindow "" SDL_WINDOWPOS_CENTERED SDL_WINDOWPOS_CENTERED
            actualWidth actualHeight
            (SDL_WINDOW_OPENGL ||| SDL_WINDOW_ALLOW_HIGHDPI |||
              (if fullscreen then SDL_WINDOW_FULLSCREEN_DESKTOP else 0))
            sdl.windowHandle,
          .SDL_GL_CreateContext sdl.windowHandle sdl.contextHandle,
          .SDL_GL_MakeCurrent sdl.windowHandle sdl.contextHandle,
          .SDL_GL_SetSwapInterval 1,
          .newGraphics actualWidth actualHeight fullscreen,
          .setResolution width height,
          .newInput,
          .setOnButtonDown,
          .setOnButtonUp ] }

/-- `Gosu::Window::~Window` (lines 77-83), on the log of the native calls made so far. -/
def Window.destructor (self : Impl) (log : List NativeCall) : List NativeCall :=
  let log1 := log ++ [.SDL_GL_DeleteContext self.context]
  let log2 := log1 ++ [.SDL_DestroyWindow self.window]
  log2 ++ [.SDL_QuitSubSystem SDL_INIT_VIDEO]

/-- The pixel sizes passed to `SDL_CreateWindow`. -/
def createdSizes : List NativeCall → List (Nat × Nat)
  | [] => []
  | .SDL_CreateWindow _ _ _ w h _ _ :: cs => (w, h) :: createdSizes cs
  | _ :: cs => createdSizes cs

/-- The pixel sizes passed to the `Graphics` constructor. -/
def graphicsSizes : List NativeCall → List (Nat × Nat)
  | [] => []
  | .newGraphics w h _ :: cs => (w, h) :: graphicsSizes cs
  | _ :: cs => graphicsSizes cs

/-- The logical resolutions passed to `Graphics::setResolution`. -/
def resolutionsSet : List NativeCall → List (Nat × Nat)
  | [] => []
  | .setResolution w h :: cs => (w, h) :: resolutionsSet cs
  | _ :: cs => resolutionsSet cs

/-- A native resource held by a window. -/
inductive Resource
  | window (h : Handle)
  | context (h : Handle)
deriving DecidableEq, Repr

/-- The resource a call releases, if any. -/
def NativeCall.releases : NativeCall → Option Resource
  | .SDL_GL_DeleteContext c => some (.context c)
  | .SDL_DestroyWindow w => some (.window w)
  | _ => none

/-- Whether a call is made against the given resource. -/
def NativeCall.uses (r : Resource) : NativeCall → Bool
  | .SDL_GL_CreateContext w _ => r = .window w
  | .SDL_GL_MakeCurrent w c => r = .window w || r = .context c
  | .SDL_GL_DeleteContext c => r = .context c
  | .SDL_DestroyWindow w => r = .window w
  | _ => false

/-- Whether some call of the log is made against a resource that an earlier call of the log
released. -/
def useAfterRelease : List NativeCall → Bool
  | [] => false
  | c :: cs =>
    (match c.releases with
      | some r => cs.any (NativeCall.uses r)
      | none => false) || useAfterRelease cs

/-- Whether the constructor threw. -/
def Constructed.threw (c : Constructed) : Bool :=
  match c.result with
  | .error _ => true
  | .ok _ => false

/-- A native layer whose initialisation succeeds. -/
def goodNative : Native := { initResult := 0, windowHandle := 7, contextHandle := 9 }

/-- A native layer whose initialisation fails. -/
def badNative : Native := { initResult := -1, windowHandle := 7, contextHandle := 9 }

end Gosu

/-! ## Theorems: display queries -/

namespace Gosu

/-- A query whose own component is already non-zero returns it and leaves the state alone. -/
theorem screenCall_cached (p : Platform) (q : ScreenQuery) (d : Display)
    (hw : d.desktopDisplayMode.w ≠ 0) (hh : d.desktopDisplayMode.h ≠ 0) :
    screenCall p q d = (component d.desktopDisplayMode q, d) := by
  cases q <;> simp [screenCall, screenWidth, screenHeight, component, hw, hh]

/-- Once both components are non-zero, no sequence of queries changes the state. -/
theorem screenCalls_cached (p : Platform) (qs : List ScreenQuery) (d : Display)
    (hw : d.desktopDisplayMode.w ≠ 0) (hh : d.desktopDisplayMode.h ≠ 0) :
    screenCalls p qs d = (qs.map (component d.desktopDisplayMode), d) := by
  induction qs with
  | nil => rfl
  | cons q qs ih => simp [screenCalls, screenCall_cached p q d hw hh, ih]

/-- The first query on the initial state asks the platform exactly once and stores its answer. -/
theorem screenCall_initial (p : Platform) (q : ScreenQuery) :
    (screenCall p q Display.initial).2 =
      { desktopDisplayMode := p 0 { w := 0, h := 0 }, queries := 1 } := by
  cases q <;> simp [screenCall, screenWidth, screenHeight, Display.initial,
    SDL_GetDesktopDisplayMode]

/-- C7 (as stated, refuted): on a platform whose first query fails, the first call of
`screenWidth()` returns 0, the next call asks the platform again and returns 1920, so the
later calls do not return the pair left by the first call and the platform is queried twice. -/
theorem C7_counterexample :
    ¬ CachedAfterFirstCall coldPlatform ∧
    screenCalls coldPlatform [.width, .width] Display.initial =
      ([0, 1920], { desktopDisplayMode := { w := 1920, h := 1080 }, queries := 2 }) := by
  refine ⟨?_, by decide⟩
  intro h
  have h2 := (h .width [.width]).2
  revert h2
  decide

/-- C7 (amended): when the answer of the platform to the first query has a non-zero width and a
non-zero height, the first call of `screenWidth()` or `screenHeight()` stores exactly that
answer with one platform query and returns its component, and every later sequence of calls
returns the components of that same pair and leaves the state, query counter included, as it
was: the platform is queried exactly once. -/
theorem C7_cached_when_nonzero (p : Platform)
    (hw : (p 0 { w := 0, h := 0 }).w ≠ 0) (hh : (p 0 { w := 0, h := 0 }).h ≠ 0)
    (first : ScreenQuery) (later : List ScreenQuery) :
    (screenCall p first Display.initial).2.desktopDisplayMode = p 0 { w := 0, h := 0 } ∧
    (screenCall p first Display.initial).1 = component (p 0 { w := 0, h := 0 }) first ∧
    (screenCall p first Display.initial).2.queries = 1 ∧
    screenCalls p later (screenCall p first Display.initial).2 =
      (later.map (component (p 0 { w := 0, h := 0 })), (screenCall p first Display.initial).2) ∧
    (screenCalls p later (screenCall p first Display.initial).2).2.queries = 1 ∧
    CachedAfterFirstCall p := by
  have key : ∀ (q : ScreenQuery) (l : List ScreenQuery),
      screenCalls p l (screenCall p q Display.initial).2 =
        (l.map (component (p 0 { w := 0, h := 0 })), (screenCall p q Display.initial).2) := by
    intro q l
    rw [screenCall_initial]
    exact screenCalls_cached p l _ hw hh
  refine ⟨by rw [screenCall_initial], ?_, by rw [screenCall_initial], key first later, ?_, ?_⟩
  · cases first <;> simp [screenCall, screenWidth, screenHeight, Display.initial,
      SDL_GetDesktopDisplayMode, component]
  · rw [key first later, screenCall_initial]
  · intro q l
    refine ⟨by rw [screenCall_initial], ?_⟩
    rw [key q l, screenCall_initial]

/-- C7 (amended), at a platform that reports 1920 x 1080. -/
theorem C7_cached_when_nonzero_witness :
    (screenCall hdPlatform .height Display.initial).2.desktopDisplayMode =
      hdPlatform 0 { w := 0, h := 0 } ∧
    (screenCall hdPlatform .height Display.initial).1 =
      component (hdPlatform 0 { w := 0, h := 0 }) .height ∧
    (screenCall hdPlatform .height Display.initial).2.queries = 1 ∧
    screenCalls hdPlatform [.width, .height, .width]
        (screenCall hdPlatform .height Display.initial).2 =
      ([.width, .height, .width].map (component (hdPlatform 0 { w := 0, h := 0 })),
        (screenCall hdPlatform .height Display.initial).2) ∧
    (screenCalls hdPlatform [.width, .height, .width]
        (screenCall hdPlatform .height Display.initial).2).2.queries = 1 ∧
    CachedAfterFirstCall hdPlatform :=
  C7_cached_when_nonzero hdPlatform (by decide) (by decide) .height [.width, .height, .width]

end Gosu

/-! ## Theorems: construction and teardown -/

namespace Gosu

/-- C5: a construction that succeeds (non-negative `SDL_Init` result) calls `setResolution`
exactly once, with the requested width and height, whatever the fullscreen flag; the pixel size
passed to `SDL_CreateWindow` and to the `Graphics` constructor is the requested size when
fullscreen is false, and the pair returned by `screenWidth()` and then `screenHeight()` when
fullscreen is true. -/
theorem C5_construction_sizes (sdl : Native) (p : Platform) (d : Display) (width height : Nat)
    (fullscreen : Bool) (updateInterval : ℚ) (hinit : 0 ≤ sdl.initResult) :
    (Window.Window sdl p d width height fullscreen updateInterval).threw = false ∧
    resolutionsSet (Window.Window sdl p d width height fullscreen updateInterval).calls =
      [(width, height)] ∧
    createdSizes (Window.Window sdl p d width height fullscreen updateInterval).calls =
      [if fullscreen then ((screenWidth p d).1, (screenHeight p (screenWidth p d).2).1)
        else (width, height)] ∧
    graphicsSizes (Window.Window sdl p d width height fullscreen updateInterval).calls =
      [if fullscreen then ((screenWidth p d).1, (screenHeight p (screenWidth p d).2).1)
        else (width, height)] := by
  have h : ¬ sdl.initResult < 0 := not_lt.mpr hinit
  cases fullscreen <;>
    simp [Window.Window, h, Constructed.threw, resolutionsSet, createdSizes, graphicsSizes]

/-- C5 at 800 x 600: windowed on a 1920 x 1080 desktop the pixel size stays 800 x 600, fullscreen
it is 1920 x 1080, and the logical resolution is 800 x 600 in both cases. -/
theorem C5_construction_sizes_witness :
    ((Window.Window goodNative hdPlatform Display.initial 800 600 false 16).threw = false ∧
      resolutionsSet (Window.Window goodNative hdPlatform Display.initial 800 600 false 16).calls =
        [(800, 600)] ∧
      createdSizes (Window.Window goodNative hdPlatform Display.initial 800 600 false 16).calls =
        [if false = true then
            ((screenWidth hdPlatform Display.initial).1,
              (screenHeight hdPlatform (screenWidth hdPlatform Display.initial).2).1)
          else (800, 600)] ∧
      graphicsSizes (Window.Window goodNative hdPlatform Display.initial 800 600 false 16).calls =
        [if false = true then
            ((screenWidth hdPlatform Display.initial).1,
              (screenHeight hdPlatform (screenWidth hdPlatform Display.initial).2).1)
          else (800, 600)]) ∧
    createdSizes (Window.Window goodNative hdPlatform Display.initial 800 600 false 16).calls =
      [(800, 600)] ∧
    createdSizes (Window.Window goodNative hdPlatform Display.initial 800 600 true 16).calls =
      [(1920, 1080)] :=
  ⟨C5_construction_sizes goodNative hdPlatform Display.initial 800 600 false 16 (by decide),
    by decide, by decide⟩

/-- C6: the constructor throws if and only if `SDL_Init` returns a negative result; when it
does, the only call made is that `SDL_Init` (no window, context, `Graphics` or `Input` is
created, no make-current or swap-interval call follows) and the display cache is untouched;
when it does not, a window is produced. -/
theorem C6_construction_error (sdl : Native) (p : Platform) (d : Display) (width height : Nat)
    (fullscreen : Bool) (updateInterval : ℚ) :
    ((Window.Window sdl p d width height fullscreen updateInterval).threw = true ↔
      sdl.initResult < 0) ∧
    (sdl.initResult < 0 →
      (Window.Window sdl p d width height fullscreen updateInterval).result =
        .error "Failed to initialize SDL Video" ∧
      (Window.Window sdl p d width height fullscreen updateInterval).calls =
        [.SDL_Init SDL_INIT_VIDEO sdl.initResult] ∧
      (Window.Window sdl p d width height fullscreen updateInterval).display = d) ∧
    (¬ sdl.initResult < 0 →
      (Window.Window sdl p d width height fullscreen updateInterval).result =
        .ok { window := sdl.windowHandle, context := sdl.contextHandle,
              updateInterval := updateInterval }) := by
  by_cases h : sdl.initResult < 0 <;> simp [Window.Window, h, Constructed.threw]

/-- C6 at a failing and at a succeeding native layer. -/
theorem C6_construction_error_witness :
    (Window.Window badNative hdPlatform Display.initial 800 600 true 16).calls =
      [.SDL_Init SDL_INIT_VIDEO (-1)] ∧
    (Window.Window badNative hdPlatform Display.initial 800 600 true 16).threw = true ∧
    (Window.Window goodNative hdPlatform Display.initial 800 600 true 16).threw = false :=
  ⟨((C6_construction_error badNative hdPlatform Display.initial 800 600 true 16).2.1
      (by decide)).2.1,
    (C6_construction_error badNative hdPlatform Display.initial 800 600 true 16).1.mpr
      (by decide),
    by
      have h := (C6_construction_error goodNative hdPlatform Display.initial 800 600 true 16).1
      cases hc : (Window.Window goodNative hdPlatform Display.initial 800 600 true 16).threw
      · rfl
      · exact absurd (h.mp hc) (by decide)⟩

/-- C8: the destructor appends exactly three calls to the log of the native layer, whatever the
window: delete the GL context, destroy the window, shut down the video subsystem, in this
order; and among them no call is made against a handle released by an earlier one. -/
theorem C8_destruction_order (self : Impl) (log : List NativeCall) :
    Window.destructor self log =
      log ++ [.SDL_GL_DeleteContext self.context, .SDL_DestroyWindow self.window,
        .SDL_QuitSubSystem SDL_INIT_VIDEO] ∧
    (Window.destructor self []).length = 3 ∧
    useAfterRelease (Window.destructor self []) = false := by
  refine ⟨by simp [Window.destructor], by simp [Window.destructor], ?_⟩
  simp [Window.destructor, useAfterRelease, NativeCall.releases, NativeCall.uses]

end Gosu

/-! ## Theorems: the event loop -/

namespace Gosu

section Loop

variable {σ : Type} (env : Env σ)

/-! ### Single calls -/

theorem Grows.refl (w : World σ) : Grows w w [] [] := by simp [Grows]

theorem Grows.trans {w w1 w2 : World σ} {n1 n2 : List Call} {a1 a2 : List SDL_Event}
    (h1 : Grows w w1 n1 a1) (h2 : Grows w1 w2 n2 a2) : Grows w w2 (n1 ++ n2) (a1 ++ a2) := by
  obtain ⟨t1, q1, p1⟩ := h1
  obtain ⟨t2, q2, p2⟩ := h2
  exact ⟨by rw [t2, t1, List.append_assoc], by rw [q2, q1, List.append_assoc],
    by rw [p2, p1, List.append_assoc]⟩

theorem milliseconds_grows (w : World σ) :
    Grows w (milliseconds env w).2 [.milliseconds (milliseconds env w).1] [] := by
  simp [Grows, milliseconds, World.record]

theorem feedSDLEvent_grows (e : SDL_Event) (w : World σ) :
    Grows w (feedSDLEvent env e w) [.feedSDLEvent e] (env.feedSDLEvent e w.ext).1 := by
  simp [Grows, feedSDLEvent, World.record, World.enqueue]

theorem inputUpdate_grows (w : World σ) :
    Grows w (inputUpdate env w) [.inputUpdate] (env.inputUpdate w.ext).1 := by
  simp [Grows, inputUpdate, World.record, World.enqueue]

theorem update_grows (w : World σ) :
    Grows w (update env w) [.update] (env.update w.ext).1 := by
  simp [Grows, update, World.record, World.enqueue]

theorem graphicsBegin_grows (w : World σ) :
    Grows w (graphicsBegin env w).2 [.graphicsBegin (graphicsBegin env w).1] [] := by
  simp [Grows, graphicsBegin, World.record]

theorem draw_grows (w : World σ) :
    Grows w (draw env w) [.draw] (env.draw w.ext).1 := by
  simp [Grows, draw, World.record, World.enqueue]

theorem graphicsEnd_grows (w : World σ) :
    Grows w (graphicsEnd env w) [.graphicsEnd] [] := by
  simp [Grows, graphicsEnd, World.record]

theorem swapWindow_grows (h : Handle) (w : World σ) :
    Grows w (SDL_GL_SwapWindow env h w) [.SDL_GL_SwapWindow h] [] := by
  simp [Grows, SDL_GL_SwapWindow, World.record]

theorem sleep_grows (d : ℚ) (w : World σ) :
    Grows w (sleep env d w) [.sleep d] [] := by
  simp [Grows, sleep, World.record]

/-! ### The loop body after the inner loop -/

theorem pace_grows (self : Impl) (t0 : Int) (w : World σ) :
    Grows w (pace env self t0 w) (paceCalls self.updateInterval t0 (milliseconds env w).1) [] := by
  have hm := milliseconds_grows env w
  unfold pace paceCalls
  by_cases hc : 0 < (milliseconds env w).1 - t0 ∧
      (((milliseconds env w).1 - t0 : Int) : ℚ) < self.updateInterval
  · simp only [hc, and_self, if_true]
    simpa using hm.trans (sleep_grows env _ _)
  · simp only [hc, if_false]
    simpa using hm

theorem present_grows (self : Impl) (t0 : Int) (w : World σ) :
    ∃ t1, Grows w (present env self t0 w) (presentCalls self t0 t1) [] := by
  refine ⟨(milliseconds env (SDL_GL_SwapWindow env self.window w)).1, ?_⟩
  simpa [presentCalls] using
    (swapWindow_grows env self.window w).trans (pace_grows env self t0 _)

theorem afterDraw_grows (self : Impl) (t0 : Int) (w : World σ) :
    ∃ t1, Grows w (afterDraw env self t0 w) (afterDrawCalls self t0 t1) [] := by
  obtain ⟨t1, h⟩ := present_grows env self t0 (graphicsEnd env w)
  refine ⟨t1, ?_⟩
  simpa [afterDrawCalls, afterDraw] using (graphicsEnd_grows env w).trans h

theorem afterUpdate_grows (self : Impl) (t0 : Int) (w : World σ) :
    ∃ ok t1 arr, Grows w (afterUpdate env self t0 w) (afterUpdateCalls self t0 ok t1) arr := by
  have hb := graphicsBegin_grows env w
  unfold afterUpdate
  cases hok : (graphicsBegin env w).1
  · obtain ⟨t1, h⟩ := present_grows env self t0 (graphicsBegin env w).2
    refine ⟨false, t1, [], ?_⟩
    rw [hok] at hb
    simpa [afterUpdateCalls, hok] using hb.trans h
  · obtain ⟨t1, h⟩ := afterDraw_grows env self t0 (draw env (graphicsBegin env w).2)
    refine ⟨true, t1, (env.draw (graphicsBegin env w).2.ext).1, ?_⟩
    rw [hok] at hb
    simpa [afterUpdateCalls, hok] using (hb.trans (draw_grows env _)).trans h

theorem afterInputUpdate_grows (self : Impl) (t0 : Int) (w : World σ) :
    ∃ ok t1 arr,
      Grows w (afterInputUpdate env self t0 w) (afterInputUpdateCalls self t0 ok t1) arr := by
  obtain ⟨ok, t1, arr, h⟩ := afterUpdate_grows env self t0 (update env w)
  refine ⟨ok, t1, (env.update w.ext).1 ++ arr, ?_⟩
  simpa [afterInputUpdateCalls, afterInputUpdate] using (update_grows env w).trans h

theorem frame_grows (self : Impl) (t0 : Int) (w : World σ) :
    ∃ ok t1 arr, Grows w (frame env self t0 w) (frameCalls self t0 ok t1) arr := by
  obtain ⟨ok, t1, arr, h⟩ := afterInputUpdate_grows env self t0 (inputUpdate env w)
  refine ⟨ok, t1, (env.inputUpdate w.ext).1 ++ arr, ?_⟩
  simpa [frameCalls, frame] using (inputUpdate_grows env w).trans h

end Loop

end Gosu

namespace Gosu

section Drain

variable {σ : Type} (env : Env σ)

/-! ### The inner loop -/

theorem drainCalls_append (a b : List SDL_Event) :
    drainCalls (a ++ b) = drainCalls a ++ drainCalls b := by
  induction a with
  | nil => rfl
  | cons e a ih => simp [drainCalls, ih]

/-- A poll that finds the queue empty, nothing having arrived. -/
theorem SDL_PollEvent_nil (w : World σ) (h : w.queue ++ (env.pump w.ext).1 = []) :
    SDL_PollEvent env w =
      (none, { ext := (env.pump w.ext).2, queue := [], pushed := w.pushed ++ (env.pump w.ext).1,
               trace := w.trace ++ [.SDL_PollEvent none] }) := by
  simp only [SDL_PollEvent, World.enqueue, World.record, h]

/-- A poll that finds an event at the head of the queue. -/
theorem SDL_PollEvent_cons (w : World σ) (e : SDL_Event) (rest : List SDL_Event)
    (h : w.queue ++ (env.pump w.ext).1 = e :: rest) :
    SDL_PollEvent env w =
      (some e, { ext := (env.pump w.ext).2, queue := rest,
                 pushed := w.pushed ++ (env.pump w.ext).1,
                 trace := w.trace ++ [.SDL_PollEvent (some e)] }) := by
  simp only [SDL_PollEvent, World.enqueue, World.record, h]

/-- Whatever the fuel, a stretch of the inner loop feeds events that are no quit events, in
queue order, and obeys the queue discipline. -/
theorem pollLoop_drained (fuel : Nat) : ∀ w : World σ,
    ∃ fed arr, (∀ e ∈ fed, e.type ≠ SDL_QUIT) ∧ Drained w fed arr (pollLoop env fuel w) := by
  induction fuel with
  | zero =>
    intro w
    exact ⟨[], [], by simp, by simp [pollLoop, Drained, drainCalls]⟩
  | succ fuel ih =>
    intro w
    cases hq : w.queue ++ (env.pump w.ext).1 with
    | nil =>
      refine ⟨[], (env.pump w.ext).1, by simp, ?_⟩
      simp only [pollLoop, SDL_PollEvent_nil env w hq, Drained, drainCalls]
      simp [hq]
    | cons e rest =>
      by_cases he : e.type = SDL_QUIT
      · refine ⟨[], (env.pump w.ext).1, by simp, ?_⟩
        simp only [pollLoop, SDL_PollEvent_cons env w e rest hq, he, if_true, Drained, drainCalls]
        exact ⟨e, he, by simp [hq]⟩
      · obtain ⟨fed, arr, hfed, hd⟩ := ih (feedSDLEvent env e
          { ext := (env.pump w.ext).2, queue := rest,
            pushed := w.pushed ++ (env.pump w.ext).1,
            trace := w.trace ++ [.SDL_PollEvent (some e)] })
        refine ⟨e :: fed, (env.pump w.ext).1 ++ ((env.feedSDLEvent e (env.pump w.ext).2).1 ++ arr),
          ?_, ?_⟩
        · intro x hx
          rcases List.mem_cons.mp hx with rfl | hx
          · exact he
          · exact hfed x hx
        · simp only [pollLoop, SDL_PollEvent_cons env w e rest hq, he, if_false]
          revert hd
          cases pollLoop env fuel (feedSDLEvent env e
            { ext := (env.pump w.ext).2, queue := rest,
              pushed := w.pushed ++ (env.pump w.ext).1,
              trace := w.trace ++ [.SDL_PollEvent (some e)] }) with
          | returned w1 =>
            simp only [Drained, feedSDLEvent, World.record, World.enqueue, drainCalls]
            rintro ⟨q, hqt, htr, hfifo, hpu⟩
            refine ⟨q, hqt, by simp [htr], ?_, by simp [hpu]⟩
            rw [← List.append_assoc, hq, List.cons_append, hfifo]
            simp
          | continues w1 =>
            simp only [Drained, feedSDLEvent, World.record, World.enqueue, drainCalls]
            rintro ⟨htr, hqu, hfifo, hpu⟩
            refine ⟨by simp [htr], hqu, ?_, by simp [hpu]⟩
            rw [← List.append_assoc, hq, hfifo]
            simp
          | starved w1 =>
            simp only [Drained, feedSDLEvent, World.record, World.enqueue, drainCalls]
            rintro ⟨htr, hfifo, hpu⟩
            refine ⟨by simp [htr], ?_, by simp [hpu]⟩
            rw [← List.append_assoc, hq, List.cons_append, hfifo]
            simp

/-- With a quit event in the queue behind `pre`, and fuel for `pre.length + 1` polls, the inner
loop feeds exactly `pre` and then executes the `return`; the events behind the quit event stay
in the queue, followed by what arrived meanwhile. -/
theorem pollLoop_quit : ∀ (pre : List SDL_Event) (fuel : Nat) (w : World σ) (q : SDL_Event)
    (post : List SDL_Event), (∀ e ∈ pre, e.type ≠ SDL_QUIT) → q.type = SDL_QUIT →
    w.queue = pre ++ q :: post → pre.length < fuel →
    ∃ w1 arr, pollLoop env fuel w = .returned w1 ∧
      w1.trace = w.trace ++ drainCalls pre ++ [.SDL_PollEvent (some q)] ∧
      w1.queue = post ++ arr ∧ w1.pushed = w.pushed ++ arr := by
  intro pre
  induction pre with
  | nil =>
    intro fuel w q post _ hq hqueue hfuel
    obtain ⟨fuel, rfl⟩ : ∃ n, fuel = n + 1 := ⟨fuel - 1, by simp at hfuel; omega⟩
    have hcons : w.queue ++ (env.pump w.ext).1 = q :: (post ++ (env.pump w.ext).1) := by
      simp [hqueue]
    refine ⟨{ ext := (env.pump w.ext).2, queue := post ++ (env.pump w.ext).1,
              pushed := w.pushed ++ (env.pump w.ext).1,
              trace := w.trace ++ [.SDL_PollEvent (some q)] }, (env.pump w.ext).1, ?_, ?_, ?_, ?_⟩
    · simp only [pollLoop, SDL_PollEvent_cons env w q _ hcons, hq, if_true]
    · simp [drainCalls]
    · rfl
    · rfl
  | cons e pre ih =>
    intro fuel w q post hpre hq hqueue hfuel
    obtain ⟨fuel, rfl⟩ : ∃ n, fuel = n + 1 := ⟨fuel - 1, by simp at hfuel; omega⟩
    have he : e.type ≠ SDL_QUIT := hpre e (List.mem_cons_self _ _)
    have hcons : w.queue ++ (env.pump w.ext).1 =
        e :: (pre ++ q :: (post ++ (env.pump w.ext).1)) := by
      simp [hqueue]
    obtain ⟨w1, arr, hrun, htr, hqu, hpu⟩ := ih fuel
      (feedSDLEvent env e
        { ext := (env.pump w.ext).2, queue := pre ++ q :: (post ++ (env.pump w.ext).1),
          pushed := w.pushed ++ (env.pump w.ext).1,
          trace := w.trace ++ [.SDL_PollEvent (some e)] })
      q (post ++ (env.pump w.ext).1 ++ (env.feedSDLEvent e (env.pump w.ext).2).1)
      (fun x hx => hpre x (List.mem_cons_of_mem _ hx)) hq
      (by simp [feedSDLEvent, World.record, World.enqueue])
      (by simp at hfuel; omega)
    refine ⟨w1, (env.pump w.ext).1 ++ (env.feedSDLEvent e (env.pump w.ext).2).1 ++ arr,
      ?_, ?_, ?_, ?_⟩
    · simp only [pollLoop, SDL_PollEvent_cons env w e _ hcons, he, if_false]
      exact hrun
    · simp [htr, feedSDLEvent, World.record, World.enqueue, drainCalls]
    · simp [hqu]
    · simp [hpu, feedSDLEvent, World.record, World.enqueue]

end Drain

end Gosu

namespace Gosu

section Projections

/-! ### Reading traces -/

theorem fedEvents_append (a b : List Call) : fedEvents (a ++ b) = fedEvents a ++ fedEvents b := by
  induction a with
  | nil => rfl
  | cons c a ih => cases c <;> simp [fedEvents, ih]

theorem sleeps_append (a b : List Call) : sleeps (a ++ b) = sleeps a ++ sleeps b := by
  induction a with
  | nil => rfl
  | cons c a ih => cases c <;> simp [sleeps, ih]

theorem clockReadings_append (a b : List Call) :
    clockReadings (a ++ b) = clockReadings a ++ clockReadings b := by
  induction a with
  | nil => rfl
  | cons c a ih => cases c <;> simp [clockReadings, ih]

theorem begins_append (a b : List Call) : begins (a ++ b) = begins a ++ begins b := by
  induction a with
  | nil => rfl
  | cons c a ih => cases c <;> simp [begins, ih]

theorem swaps_append (a b : List Call) : swaps (a ++ b) = swaps a ++ swaps b := by
  induction a with
  | nil => rfl
  | cons c a ih => cases c <;> simp [swaps, ih]

theorem fedEvents_drainCalls (l : List SDL_Event) : fedEvents (drainCalls l) = l := by
  induction l with
  | nil => rfl
  | cons e l ih => simp [drainCalls, fedEvents, ih]

theorem sleeps_drainCalls (l : List SDL_Event) : sleeps (drainCalls l) = [] := by
  induction l with
  | nil => rfl
  | cons e l ih => simp [drainCalls, sleeps, ih]

theorem clockReadings_drainCalls (l : List SDL_Event) : clockReadings (drainCalls l) = [] := by
  induction l with
  | nil => rfl
  | cons e l ih => simp [drainCalls, clockReadings, ih]

theorem begins_drainCalls (l : List SDL_Event) : begins (drainCalls l) = [] := by
  induction l with
  | nil => rfl
  | cons e l ih => simp [drainCalls, begins, ih]

theorem swaps_drainCalls (l : List SDL_Event) : swaps (drainCalls l) = [] := by
  induction l with
  | nil => rfl
  | cons e l ih => simp [drainCalls, swaps, ih]

theorem isDrainCall_of_mem_drainCalls (l : List SDL_Event) :
    ∀ c ∈ drainCalls l, c.isDrainCall = true := by
  induction l with
  | nil => simp [drainCalls]
  | cons e l ih =>
    intro c hc
    simp only [drainCalls, List.mem_cons] at hc
    rcases hc with rfl | rfl | hc
    · rfl
    · rfl
    · exact ih c hc

theorem filter_isFrameCall_drainCalls (l : List SDL_Event) :
    (drainCalls l).filter Call.isFrameCall = [] := by
  induction l with
  | nil => rfl
  | cons e l ih => simp [drainCalls, Call.isFrameCall, ih]

theorem count_drainCalls_eq_zero (l : List SDL_Event) (c : Call) (hc : c.isDrainCall = false) :
    (drainCalls l).count c = 0 := by
  rw [List.count_eq_zero]
  intro hmem
  rw [isDrainCall_of_mem_drainCalls l c hmem] at hc
  exact Bool.noConfusion hc

end Projections

section Iteration

variable {σ : Type} (env : Env σ)

/-- An iteration whose inner loop ends on an empty queue runs the rest of the body. -/
theorem iteration_continues (self : Impl) (fuel : Nat) (w w1 : World σ)
    (hdrain : pollLoop env fuel (milliseconds env w).2 = .continues w1) :
    iteration env self fuel w = .continues (frame env self (env.milliseconds w.ext).1 w1) ∧
    ∃ fed arr, (∀ e ∈ fed, e.type ≠ SDL_QUIT) ∧ fed = w.queue ++ arr ∧ w1.queue = [] ∧
      w1.pushed = w.pushed ++ arr ∧
      w1.trace = w.trace ++ ([.milliseconds (env.milliseconds w.ext).1] ++ drainCalls fed ++
        [.SDL_PollEvent none]) := by
  constructor
  · simp only [iteration, drainThenFrame, hdrain]
    rfl
  · obtain ⟨fed, arr, hfed, hd⟩ := pollLoop_drained env fuel (milliseconds env w).2
    rw [hdrain] at hd
    obtain ⟨htr, hqu, hfifo, hpu⟩ := hd
    refine ⟨fed, arr, hfed, ?_, hqu, ?_, ?_⟩
    · simpa [milliseconds, World.record] using hfifo
    · simpa [milliseconds, World.record] using hpu
    · simpa [milliseconds, World.record] using htr

/-- C1: when the queue at the loop head holds the events `pre`, none of them a quit event, then
a quit event `q`, then `post`, `show` (with fuel for `pre.length + 1` polls) returns in that
iteration; the calls it makes are the clock read, a poll and a feed for each event of `pre` in
queue order, and the poll that yields `q`: exactly `pre` is fed, unmodified, no
`Input::update`, `update`, `begin`, `draw`, `end`, swap or sleep is called, and `post` is still
at the head of the queue, followed only by what arrived meanwhile. -/
theorem C1_quit_event_returns (self : Impl) (w : World σ) (pre : List SDL_Event)
    (q : SDL_Event) (post : List SDL_Event) (fuel : Nat)
    (hpre : ∀ e ∈ pre, e.type ≠ SDL_QUIT) (hq : q.type = SDL_QUIT)
    (hqueue : w.queue = pre ++ q :: post) (hfuel : pre.length + 2 ≤ fuel) :
    ∃ w1 arr, Window.show env self fuel w = .returned w1 ∧
      w1.trace = w.trace ++ ([.milliseconds (env.milliseconds w.ext).1] ++ drainCalls pre ++
        [.SDL_PollEvent (some q)]) ∧
      fedEvents w1.trace = fedEvents w.trace ++ pre ∧
      w1.trace.filter Call.isFrameCall = w.trace.filter Call.isFrameCall ∧
      w1.queue = post ++ arr ∧ w1.pushed = w.pushed ++ arr := by
  obtain ⟨fuel, rfl⟩ : ∃ n, fuel = n + 1 := ⟨fuel - 1, by omega⟩
  obtain ⟨w1, arr, hrun, htr, hqu, hpu⟩ := pollLoop_quit env pre fuel (milliseconds env w).2 q post
    hpre hq (by simpa [milliseconds, World.record] using hqueue) (by omega)
  have htr2 : w1.trace = w.trace ++ ([.milliseconds (env.milliseconds w.ext).1] ++
      drainCalls pre ++ [.SDL_PollEvent (some q)]) := by
    simpa [milliseconds, World.record] using htr
  refine ⟨w1, arr, ?_, htr2, ?_, ?_, hqu, ?_⟩
  · simp only [Window.show, Window.showFrom, finishIteration, iteration, drainThenFrame, hrun]
  · rw [htr2]
    simp [fedEvents_append, fedEvents_drainCalls, fedEvents]
  · rw [htr2]
    simp [filter_isFrameCall_drainCalls, Call.isFrameCall]
  · simpa [milliseconds, World.record] using hpu

end Iteration

end Gosu

namespace Gosu

section Order

variable {σ : Type} (env : Env σ)

/-- The calls of an iteration that drains no quit event, as the code makes them, are those of
the specification order. -/
theorem iterationCalls_eq (self : Impl) (t0 : Int) (fed : List SDL_Event) (ok : Bool)
    (t1 : Int) :
    [Call.milliseconds t0] ++ drainCalls fed ++ [.SDL_PollEvent none] ++
        frameCalls self t0 ok t1 =
      iterationCalls self.window t0 fed ok t1
        (if 0 < t1 - t0 ∧ ((t1 - t0 : Int) : ℚ) < self.updateInterval then
          some (self.updateInterval - ((t1 - t0 : Int) : ℚ)) else none) := by
  by_cases hc : 0 < t1 - t0 ∧ ((t1 - t0 : Int) : ℚ) < self.updateInterval
  · simp only [iterationCalls, frameCalls, afterInputUpdateCalls, afterUpdateCalls,
      afterDrawCalls, presentCalls, paceCalls, if_pos hc]
    cases ok <;> simp
  · simp only [iterationCalls, frameCalls, afterInputUpdateCalls, afterUpdateCalls,
      afterDrawCalls, presentCalls, paceCalls, if_neg hc]
    cases ok <;> simp

/-- The trace of an iteration whose inner loop ends on an empty queue. -/
theorem iteration_trace (self : Impl) (fuel : Nat) (w w1 : World σ)
    (hdrain : pollLoop env fuel (milliseconds env w).2 = .continues w1) :
    ∃ fed arr ok t1 arr2,
      iteration env self fuel w = .continues (frame env self (env.milliseconds w.ext).1 w1) ∧
      (∀ e ∈ fed, e.type ≠ SDL_QUIT) ∧ fed = w.queue ++ arr ∧ w1.queue = [] ∧
      w1.pushed = w.pushed ++ arr ∧
      (frame env self (env.milliseconds w.ext).1 w1).trace =
        w.trace ++ ([Call.milliseconds (env.milliseconds w.ext).1] ++ drainCalls fed ++
          [.SDL_PollEvent none] ++ frameCalls self (env.milliseconds w.ext).1 ok t1) ∧
      (frame env self (env.milliseconds w.ext).1 w1).queue = arr2 ∧
      (frame env self (env.milliseconds w.ext).1 w1).pushed = w.pushed ++ arr ++ arr2 := by
  obtain ⟨hit, fed, arr, hfed, hfifo, hqu, hpu, htr⟩ := iteration_continues env self fuel w w1 hdrain
  obtain ⟨ok, t1, arr2, hg⟩ := frame_grows env self (env.milliseconds w.ext).1 w1
  obtain ⟨gtr, gqu, gpu⟩ := hg
  refine ⟨fed, arr, ok, t1, arr2, hit, hfed, hfifo, hqu, hpu, ?_, ?_, ?_⟩
  · rw [gtr, htr]
    simp
  · rw [gqu, hqu]
    simp
  · rw [gpu, hpu]

/-- Counting the calls of one iteration in specification order. -/
theorem iterationCalls_counts (window : Handle) (t0 : Int) (fed : List SDL_Event) (ok : Bool)
    (t1 : Int) (slept : Option ℚ) :
    (iterationCalls window t0 fed ok t1 slept).count .inputUpdate = 1 ∧
    (iterationCalls window t0 fed ok t1 slept).count .update = 1 ∧
    begins (iterationCalls window t0 fed ok t1 slept) = [ok] ∧
    (iterationCalls window t0 fed ok t1 slept).count .draw = (if ok then 1 else 0) ∧
    (iterationCalls window t0 fed ok t1 slept).count .graphicsEnd = (if ok then 1 else 0) ∧
    swaps (iterationCalls window t0 fed ok t1 slept) = [window] ∧
    clockReadings (iterationCalls window t0 fed ok t1 slept) = [t0, t1] ∧
    fedEvents (iterationCalls window t0 fed ok t1 slept) = fed ∧
    sleeps (iterationCalls window t0 fed ok t1 slept) = slept.toList := by
  have c1 := count_drainCalls_eq_zero fed .inputUpdate rfl
  have c2 := count_drainCalls_eq_zero fed .update rfl
  have c3 := count_drainCalls_eq_zero fed .draw rfl
  have c4 := count_drainCalls_eq_zero fed .graphicsEnd rfl
  cases ok <;> cases slept <;>
    simp [iterationCalls, List.count_append, List.count_cons, c1, c2, c3, c4, begins_append,
      begins_drainCalls, begins, swaps_append, swaps_drainCalls, swaps, clockReadings_append,
      clockReadings_drainCalls, clockReadings, fedEvents_append, fedEvents_drainCalls, fedEvents,
      sleeps_append, sleeps_drainCalls, sleeps]

theorem runCalls_cons (blk : List Call) (blocks : List (List Call)) (tail : List Call) :
    runCalls (blk :: blocks) tail = blk ++ runCalls blocks tail := rfl

/-- The trace of any run of `show`: complete iterations in specification order, then calls of
the inner loop only. -/
theorem show_trace (self : Impl) (fuel : Nat) : ∀ w : World σ,
    ∃ blocks tail, (Window.show env self fuel w).world.trace = w.trace ++ runCalls blocks tail ∧
      (∀ blk ∈ blocks, IsIterationBlock self.window blk) ∧
      tail.filter Call.isFrameCall = [] := by
  induction fuel with
  | zero =>
    intro w
    exact ⟨[], [], by simp [Window.show, Window.showFrom, Outcome.world, runCalls], by simp, rfl⟩
  | succ fuel ih =>
    intro w
    obtain ⟨fed, arr, hfed, hd⟩ := pollLoop_drained env fuel (milliseconds env w).2
    cases hres : pollLoop env fuel (milliseconds env w).2 with
    | returned w1 =>
      rw [hres] at hd
      obtain ⟨q, _, htr, _, _⟩ := hd
      refine ⟨[], [Call.milliseconds (env.milliseconds w.ext).1] ++ drainCalls fed ++
        [.SDL_PollEvent (some q)], ?_, by simp, ?_⟩
      · simp only [Window.show, Window.showFrom, finishIteration, iteration, drainThenFrame, hres,
          Outcome.world, runCalls, List.foldr_nil]
        simpa [milliseconds, World.record] using htr
      · simp [filter_isFrameCall_drainCalls, Call.isFrameCall]
    | starved w1 =>
      rw [hres] at hd
      obtain ⟨htr, _, _⟩ := hd
      refine ⟨[], [Call.milliseconds (env.milliseconds w.ext).1] ++ drainCalls fed, ?_,
        by simp, ?_⟩
      · simp only [Window.show, Window.showFrom, finishIteration, iteration, drainThenFrame, hres,
          Outcome.world, runCalls, List.foldr_nil]
        simpa [milliseconds, World.record] using htr
      · simp [filter_isFrameCall_drainCalls, Call.isFrameCall]
    | continues w1 =>
      obtain ⟨fed2, arr1, ok, t1, arr2, hit, _, _, _, _, htr, _, _⟩ :=
        iteration_trace env self fuel w w1 hres
      obtain ⟨blocks, tail, hrun, hblocks, htail⟩ :=
        ih (frame env self (env.milliseconds w.ext).1 w1)
      refine ⟨([Call.milliseconds (env.milliseconds w.ext).1] ++ drainCalls fed2 ++
        [.SDL_PollEvent none] ++ frameCalls self (env.milliseconds w.ext).1 ok t1) :: blocks,
        tail, ?_, ?_, htail⟩
      · have hshow : Window.show env self (fuel + 1) w =
            Window.show env self fuel (frame env self (env.milliseconds w.ext).1 w1) := by
          simp only [Window.show, Window.showFrom, finishIteration, hit]
        rw [hshow, hrun, htr, runCalls_cons]
        simp
      · intro blk hblk
        rcases List.mem_cons.mp hblk with rfl | hblk
        · exact ⟨_, _, _, _, _, iterationCalls_eq self _ fed2 ok t1⟩
        · exact hblocks blk hblk

/-- C10: an iteration of `show` whose inner loop ends without a quit event makes its calls in
the order of section 4.5 of the specification, each step once: the clock read, a poll and a
feed for every pending event in queue order (the events queued at the start, then those that
arrived meanwhile) until a poll finds the queue empty, `Input::update`, `update`, `begin`
(followed by `draw` and `end` exactly when it succeeded), the swap, the second clock read and
at most one sleep.  The trace of any run of `show` is a sequence of such iterations followed
by calls of the inner loop only, so `update` never precedes the `Input::update` of its
iteration and `draw` never precedes the `update` of its iteration. -/
theorem C10_iteration_order (self : Impl) :
    (∀ (fuel : Nat) (w w1 : World σ),
      pollLoop env fuel (milliseconds env w).2 = .continues w1 →
      ∃ w2 fed arr ok t1 slept,
        iteration env self fuel w = .continues w2 ∧
        w2.trace =
          w.trace ++ iterationCalls self.window (env.milliseconds w.ext).1 fed ok t1 slept ∧
        (∀ e ∈ fed, e.type ≠ SDL_QUIT) ∧ fed = w.queue ++ arr ∧
        w1.pushed = w.pushed ++ arr ∧ w1.queue = []) ∧
    (∀ (t0 : Int) (fed : List SDL_Event) (ok : Bool) (t1 : Int) (slept : Option ℚ),
      (iterationCalls self.window t0 fed ok t1 slept).count .inputUpdate = 1 ∧
      (iterationCalls self.window t0 fed ok t1 slept).count .update = 1 ∧
      begins (iterationCalls self.window t0 fed ok t1 slept) = [ok] ∧
      (iterationCalls self.window t0 fed ok t1 slept).count .draw = (if ok then 1 else 0) ∧
      (iterationCalls self.window t0 fed ok t1 slept).count .graphicsEnd =
        (if ok then 1 else 0) ∧
      swaps (iterationCalls self.window t0 fed ok t1 slept) = [self.window] ∧
      clockReadings (iterationCalls self.window t0 fed ok t1 slept) = [t0, t1] ∧
      fedEvents (iterationCalls self.window t0 fed ok t1 slept) = fed ∧
      sleeps (iterationCalls self.window t0 fed ok t1 slept) = slept.toList) ∧
    (∀ (fuel : Nat) (w : World σ),
      ∃ blocks tail,
        (Window.show env self fuel w).world.trace = w.trace ++ runCalls blocks tail ∧
        (∀ blk ∈ blocks, IsIterationBlock self.window blk) ∧
        tail.filter Call.isFrameCall = []) := by
  refine ⟨?_, fun t0 fed ok t1 slept => iterationCalls_counts self.window t0 fed ok t1 slept,
    fun fuel w => show_trace env self fuel w⟩
  intro fuel w w1 hdrain
  obtain ⟨fed, arr, ok, t1, arr2, hit, hfed, hfifo, hqu, hpu, htr, _, _⟩ :=
    iteration_trace env self fuel w w1 hdrain
  exact ⟨_, fed, arr, ok, t1, _, hit, by rw [htr, iterationCalls_eq], hfed, hfifo, hpu, hqu⟩

end Order

end Gosu

namespace Gosu

section Frame

variable {σ : Type} (env : Env σ)

/-- C3: in an iteration of `show` whose inner loop ends without a quit event, `begin()` is
called once and the swap is called once, on the window; when `begin()` returned false neither
`draw()` nor `end()` is called in the iteration, and the loop still goes on with the next
iteration; when `begin()` returned true, `draw()` and `end()` are called once each, `draw()`
then `end()` then the swap. -/
theorem C3_begin_gates_draw (self : Impl) (fuel : Nat) (w w1 : World σ)
    (hdrain : pollLoop env fuel (milliseconds env w).2 = .continues w1) :
    ∃ w2 new ok, iteration env self fuel w = .continues w2 ∧
      Window.show env self (fuel + 1) w = Window.show env self fuel w2 ∧
      w2.trace = w.trace ++ new ∧ begins new = [ok] ∧ swaps new = [self.window] ∧
      (ok = false → new.count .draw = 0 ∧ new.count .graphicsEnd = 0) ∧
      (ok = true → new.count .draw = 1 ∧ new.count .graphicsEnd = 1 ∧
        ∃ a b, new = a ++ [.draw, .graphicsEnd, .SDL_GL_SwapWindow self.window] ++ b) := by
  obtain ⟨fed, arr, ok, t1, arr2, hit, _, _, _, _, htr, _, _⟩ :=
    iteration_trace env self fuel w w1 hdrain
  rw [iterationCalls_eq] at htr
  obtain ⟨_, _, hb, hdraw, hend, hsw, _, _, _⟩ := iterationCalls_counts self.window
    (env.milliseconds w.ext).1 fed ok t1
    (if 0 < t1 - (env.milliseconds w.ext).1 ∧
        ((t1 - (env.milliseconds w.ext).1 : Int) : ℚ) < self.updateInterval then
      some (self.updateInterval - ((t1 - (env.milliseconds w.ext).1 : Int) : ℚ)) else none)
  refine ⟨_, _, ok, hit, ?_, htr, hb, hsw, ?_, ?_⟩
  · simp only [Window.show, Window.showFrom, finishIteration, hit]
  · intro hok
    rw [hdraw, hend, hok]
    simp
  · intro hok
    rw [hdraw, hend, hok]
    refine ⟨by simp, by simp, ?_⟩
    refine ⟨[Call.milliseconds (env.milliseconds w.ext).1] ++ drainCalls fed ++
      [.SDL_PollEvent none, .inputUpdate, .update, .graphicsBegin true],
      Call.milliseconds t1 :: (match (if 0 < t1 - (env.milliseconds w.ext).1 ∧
          ((t1 - (env.milliseconds w.ext).1 : Int) : ℚ) < self.updateInterval then
        some (self.updateInterval - ((t1 - (env.milliseconds w.ext).1 : Int) : ℚ)) else none) with
        | none => []
        | some d => [Call.sleep d]), ?_⟩
    simp only [iterationCalls, if_true]
    simp

/-- C4: in an iteration of `show` whose inner loop ends without a quit event the clock is read
twice, at the start (`t0`) and right after the swap (`t1`), and with `frameTime = t1 - t0` the
only sleep of the iteration, if any, follows the second reading: `sleep` is called if and only
if `0 < frameTime` and `frameTime < updateInterval`, with `updateInterval - frameTime` as
its argument.  With an interval of 16 and a frame time of 5 it sleeps 11; with a frame time of
`updateInterval` or more it does not sleep. -/
theorem C4_frame_pacing (self : Impl) (fuel : Nat) (w w1 : World σ)
    (hdrain : pollLoop env fuel (milliseconds env w).2 = .continues w1) :
    ∃ w2 body t1, iteration env self fuel w = .continues w2 ∧
      w2.trace = w.trace ++ ([Call.milliseconds (env.milliseconds w.ext).1] ++ body ++
        [.SDL_GL_SwapWindow self.window, .milliseconds t1] ++
        (if 0 < t1 - (env.milliseconds w.ext).1 ∧
            ((t1 - (env.milliseconds w.ext).1 : Int) : ℚ) < self.updateInterval then
          [.sleep (self.updateInterval - ((t1 - (env.milliseconds w.ext).1 : Int) : ℚ))]
        else [])) ∧
      clockReadings body = [] ∧ sleeps body = [] ∧ swaps body = [] ∧
      sleeps w2.trace = sleeps w.trace ++
        (if 0 < t1 - (env.milliseconds w.ext).1 ∧
            ((t1 - (env.milliseconds w.ext).1 : Int) : ℚ) < self.updateInterval then
          [self.updateInterval - ((t1 - (env.milliseconds w.ext).1 : Int) : ℚ)]
        else []) ∧
      (self.updateInterval = 16 → t1 - (env.milliseconds w.ext).1 = 5 →
        sleeps w2.trace = sleeps w.trace ++ [11]) ∧
      (self.updateInterval ≤ ((t1 - (env.milliseconds w.ext).1 : Int) : ℚ) →
        sleeps w2.trace = sleeps w.trace) := by
  obtain ⟨fed, arr, ok, t1, arr2, hit, _, _, _, _, htr, _, _⟩ :=
    iteration_trace env self fuel w w1 hdrain
  have hbody : clockReadings (drainCalls fed ++ [Call.SDL_PollEvent none, .inputUpdate, .update,
        .graphicsBegin ok] ++ (if ok then [Call.draw, .graphicsEnd] else [])) = [] ∧
      sleeps (drainCalls fed ++ [Call.SDL_PollEvent none, .inputUpdate, .update,
        .graphicsBegin ok] ++ (if ok then [Call.draw, .graphicsEnd] else [])) = [] ∧
      swaps (drainCalls fed ++ [Call.SDL_PollEvent none, .inputUpdate, .update,
        .graphicsBegin ok] ++ (if ok then [Call.draw, .graphicsEnd] else [])) = [] := by
    cases ok <;>
      simp [clockReadings_append, clockReadings_drainCalls, clockReadings, sleeps_append,
        sleeps_drainCalls, sleeps, swaps_append, swaps_drainCalls, swaps]
  have htr2 : (frame env self (env.milliseconds w.ext).1 w1).trace =
      w.trace ++ ([Call.milliseconds (env.milliseconds w.ext).1] ++
        (drainCalls fed ++ [Call.SDL_PollEvent none, .inputUpdate, .update,
          .graphicsBegin ok] ++ (if ok then [Call.draw, .graphicsEnd] else [])) ++
        [.SDL_GL_SwapWindow self.window, .milliseconds t1] ++
        (if 0 < t1 - (env.milliseconds w.ext).1 ∧
            ((t1 - (env.milliseconds w.ext).1 : Int) : ℚ) < self.updateInterval then
          [.sleep (self.updateInterval - ((t1 - (env.milliseconds w.ext).1 : Int) : ℚ))]
        else [])) := by
    rw [htr]
    simp only [frameCalls, afterInputUpdateCalls, afterUpdateCalls, afterDrawCalls, presentCalls,
      paceCalls]
    cases ok <;> simp
  have hsl : sleeps (frame env self (env.milliseconds w.ext).1 w1).trace = sleeps w.trace ++
      (if 0 < t1 - (env.milliseconds w.ext).1 ∧
          ((t1 - (env.milliseconds w.ext).1 : Int) : ℚ) < self.updateInterval then
        [self.updateInterval - ((t1 - (env.milliseconds w.ext).1 : Int) : ℚ)]
      else []) := by
    rw [htr2]
    simp only [sleeps_append, hbody.2.1]
    by_cases hc : 0 < t1 - (env.milliseconds w.ext).1 ∧
        ((t1 - (env.milliseconds w.ext).1 : Int) : ℚ) < self.updateInterval
    · simp only [if_pos hc]
      simp [sleeps]
    · simp only [if_neg hc]
      simp [sleeps]
  refine ⟨_, _, t1, hit, htr2, hbody.1, hbody.2.1, hbody.2.2, hsl, ?_, ?_⟩
  · intro hU hft
    rw [hsl, hU, hft]
    norm_num
  · intro hle
    rw [hsl, if_neg (fun hc => absurd hc.2 (not_lt.mpr hle))]
    simp

/-- With a non-positive update interval the pacing step never sleeps. -/
theorem sleeps_paceCalls_nonpos (U : ℚ) (hU : U ≤ 0) (t0 t1 : Int) :
    sleeps (paceCalls U t0 t1) = [] := by
  have hc : ¬ (0 < t1 - t0 ∧ ((t1 - t0 : Int) : ℚ) < U) := by
    rintro ⟨hpos, hlt⟩
    have h1 : (0 : ℚ) < ((t1 - t0 : Int) : ℚ) := by exact_mod_cast hpos
    linarith
  simp only [paceCalls, if_neg hc]
  simp [sleeps]

/-- With a non-positive update interval the calls after the inner loop hold no sleep. -/
theorem sleeps_frameCalls_nonpos (self : Impl) (hU : self.updateInterval ≤ 0) (t0 : Int)
    (ok : Bool) (t1 : Int) : sleeps (frameCalls self t0 ok t1) = [] := by
  cases ok <;> exact sleeps_paceCalls_nonpos self.updateInterval hU t0 t1

/-- With a non-positive update interval no stretch of an iteration adds a sleep. -/
theorem finishIteration_sleeps (self : Impl) (hU : self.updateInterval ≤ 0) (fuel : Nat)
    (pt : Point) (w : World σ) :
    sleeps (finishIteration env self fuel pt w).world.trace = sleeps w.trace := by
  have hframe : ∀ (t0 : Int) (w0 : World σ),
      sleeps (frame env self t0 w0).trace = sleeps w0.trace := by
    intro t0 w0
    obtain ⟨ok, t1, arr, hg, _, _⟩ := frame_grows env self t0 w0
    rw [hg, sleeps_append, sleeps_frameCalls_nonpos self hU, List.append_nil]
  have hdrainThen : ∀ (t0 : Int) (w0 : World σ),
      sleeps (drainThenFrame env self fuel t0 w0).world.trace = sleeps w0.trace := by
    intro t0 w0
    obtain ⟨fed, arr, _, hd⟩ := pollLoop_drained env fuel w0
    unfold drainThenFrame
    cases hres : pollLoop env fuel w0 with
    | returned w1 =>
      rw [hres] at hd
      obtain ⟨q, _, htr, _, _⟩ := hd
      simp [Flow.world, htr, sleeps_append, sleeps_drainCalls, sleeps]
    | starved w1 =>
      rw [hres] at hd
      obtain ⟨htr, _, _⟩ := hd
      simp [Flow.world, htr, sleeps_append, sleeps_drainCalls]
    | continues w1 =>
      rw [hres] at hd
      obtain ⟨htr, _, _, _⟩ := hd
      simp [Flow.world, hframe, htr, sleeps_append, sleeps_drainCalls, sleeps]
  cases pt with
  | loopHead =>
    simp only [finishIteration, iteration]
    rw [hdrainThen]
    simp [milliseconds, World.record, sleeps_append, sleeps]
  | polling t => exact hdrainThen t w
  | afterInputUpdate t =>
    obtain ⟨ok, t1, arr, hg, _, _⟩ := afterInputUpdate_grows env self t w
    simp only [finishIteration, Flow.world, hg, sleeps_append]
    have h : sleeps (afterInputUpdateCalls self t ok t1) = [] :=
      sleeps_frameCalls_nonpos self hU t ok t1
    rw [h, List.append_nil]
  | afterUpdate t =>
    obtain ⟨ok, t1, arr, hg, _, _⟩ := afterUpdate_grows env self t w
    simp only [finishIteration, Flow.world, hg, sleeps_append]
    have h : sleeps (afterUpdateCalls self t ok t1) = [] :=
      sleeps_frameCalls_nonpos self hU t ok t1
    rw [h, List.append_nil]
  | afterDraw t =>
    obtain ⟨t1, hg, _, _⟩ := afterDraw_grows env self t w
    simp only [finishIteration, Flow.world, hg, sleeps_append]
    have h : sleeps (afterDrawCalls self t t1) = [] :=
      sleeps_paceCalls_nonpos self.updateInterval hU t t1
    rw [h, List.append_nil]

/-- C9: with an update interval that is zero or negative, a run of `show` never calls `sleep`:
whatever the fuel, the point resumed at, the clock and the rest of the outside world, the
sleeps in the trace after the run are those it held before. -/
theorem C9_nonpositive_interval_never_sleeps (self : Impl) (hU : self.updateInterval ≤ 0)
    (fuel : Nat) (w : World σ) :
    sleeps (Window.show env self fuel w).world.trace = sleeps w.trace ∧
    ∀ pt : Point, sleeps (Window.showFrom env self fuel pt w).world.trace = sleeps w.trace := by
  have key : ∀ (n : Nat) (pt : Point) (w0 : World σ),
      sleeps (Window.showFrom env self n pt w0).world.trace = sleeps w0.trace := by
    intro n
    induction n with
    | zero =>
      intro pt w0
      rfl
    | succ n ih =>
      intro pt w0
      have hfin := finishIteration_sleeps env self hU n pt w0
      simp only [Window.showFrom]
      cases hres : finishIteration env self n pt w0 with
      | returned w1 =>
        rw [hres] at hfin
        simpa [Outcome.world, Flow.world] using hfin
      | starved w1 =>
        rw [hres] at hfin
        simpa [Outcome.world, Flow.world] using hfin
      | continues w1 =>
        rw [hres] at hfin
        simp only [Flow.world] at hfin
        rw [ih .loopHead w1, hfin]
  exact ⟨key fuel .loopHead w, fun pt => key fuel pt w⟩

end Frame

end Gosu

namespace Gosu

section Close

variable {σ : Type} (env : Env σ)

/-- A list with a quit event in it splits at its first quit event, which lies no further than
the given one. -/
theorem first_quit (a : List SDL_Event) (q0 : SDL_Event) (b : List SDL_Event)
    (hq0 : q0.type = SDL_QUIT) :
    ∃ pre q post, a ++ q0 :: b = pre ++ q :: post ∧ (∀ e ∈ pre, e.type ≠ SDL_QUIT) ∧
      q.type = SDL_QUIT ∧ pre.length ≤ a.length := by
  induction a with
  | nil => exact ⟨[], q0, b, rfl, by simp, hq0, by simp⟩
  | cons x a ih =>
    by_cases hx : x.type = SDL_QUIT
    · exact ⟨[], x, a ++ q0 :: b, rfl, by simp, hx, by simp⟩
    · obtain ⟨pre, q, post, heq, hpre, hq, hlen⟩ := ih
      refine ⟨x :: pre, q, post, by simp [heq], ?_, hq, by simpa using hlen⟩
      intro e he
      rcases List.mem_cons.mp he with rfl | he
      · exact hx
      · exact hpre e he

/-- At the loop head with a quit event queued behind `pre`, `show` returns in this iteration. -/
theorem show_returns_at_quit (self : Impl) (w : World σ) (pre : List SDL_Event) (q : SDL_Event)
    (post : List SDL_Event) (fuel : Nat) (hpre : ∀ e ∈ pre, e.type ≠ SDL_QUIT)
    (hq : q.type = SDL_QUIT) (hqueue : w.queue = pre ++ q :: post)
    (hfuel : pre.length + 2 ≤ fuel) :
    ∃ w1, Window.showFrom env self fuel .loopHead w = .returned w1 ∧
      w1.trace = w.trace ++ ([.milliseconds (env.milliseconds w.ext).1] ++ drainCalls pre ++
        [.SDL_PollEvent (some q)]) := by
  obtain ⟨fuel, rfl⟩ : ∃ n, fuel = n + 1 := ⟨fuel - 1, by omega⟩
  obtain ⟨w1, arr, hrun, htr, _, _⟩ := pollLoop_quit env pre fuel (milliseconds env w).2 q post
    hpre hq (by simpa [milliseconds, World.record] using hqueue) (by omega)
  refine ⟨w1, ?_, ?_⟩
  · simp only [Window.showFrom, finishIteration, iteration, drainThenFrame, hrun]
  · simpa [milliseconds, World.record] using htr

theorem count_update_paceCalls (U : ℚ) (t0 t1 : Int) :
    (paceCalls U t0 t1).count .update = 0 := by
  by_cases hc : 0 < t1 - t0 ∧ ((t1 - t0 : Int) : ℚ) < U
  · simp only [paceCalls, if_pos hc]
    simp [List.count_cons]
  · simp only [paceCalls, if_neg hc]
    simp [List.count_cons]

theorem count_update_afterDrawCalls (self : Impl) (t0 t1 : Int) :
    (afterDrawCalls self t0 t1).count .update = 0 := by
  simp [afterDrawCalls, presentCalls, List.count_cons, count_update_paceCalls]

theorem count_update_afterUpdateCalls (self : Impl) (t0 : Int) (ok : Bool) (t1 : Int) :
    (afterUpdateCalls self t0 ok t1).count .update = 0 := by
  cases ok <;>
    simp [afterUpdateCalls, afterDrawCalls, presentCalls, List.count_cons,
      count_update_paceCalls]

theorem count_update_remainderCalls (self : Impl) (ok : Bool) (t1 : Int) (pt : Point) :
    (remainderCalls self ok t1 pt).count .update ≤ 1 := by
  cases pt with
  | loopHead => simp [remainderCalls]
  | polling t => simp [remainderCalls]
  | afterInputUpdate t =>
    simp [remainderCalls, afterInputUpdateCalls, List.count_cons, count_update_afterUpdateCalls]
  | afterUpdate t => simp [remainderCalls, count_update_afterUpdateCalls]
  | afterDraw t => simp [remainderCalls, count_update_afterDrawCalls]

theorem count_update_drain (t : Int) (pt : Point) (pre : List SDL_Event) (q : SDL_Event) :
    (loopHeadCalls t pt ++ drainCalls pre ++ [Call.SDL_PollEvent (some q)]).count .update = 0 := by
  have h := count_drainCalls_eq_zero pre .update rfl
  cases pt <;> simp [loopHeadCalls, List.count_append, List.count_cons, h]

/-- From a point outside the inner loop the rest of the iteration only appends to the queue. -/
theorem finishIteration_grows (self : Impl) (fuel : Nat) (pt : Point) (w : World σ)
    (hpt : pt ≠ .loopHead) (hpt2 : ∀ t, pt ≠ .polling t) :
    ∃ w1 ok t1 arr, finishIteration env self fuel pt w = .continues w1 ∧
      Grows w w1 (remainderCalls self ok t1 pt) arr := by
  cases pt with
  | loopHead => exact absurd rfl hpt
  | polling t => exact absurd rfl (hpt2 t)
  | afterInputUpdate t =>
    obtain ⟨ok, t1, arr, hg⟩ := afterInputUpdate_grows env self t w
    exact ⟨_, ok, t1, arr, rfl, hg⟩
  | afterUpdate t =>
    obtain ⟨ok, t1, arr, hg⟩ := afterUpdate_grows env self t w
    exact ⟨_, ok, t1, arr, rfl, hg⟩
  | afterDraw t =>
    obtain ⟨t1, hg⟩ := afterDraw_grows env self t w
    exact ⟨_, true, t1, [], rfl, hg⟩

/-- From any point of a running `show`, a quit event in the queue behind `pre` makes `show`
return by the next run of the inner loop. -/
theorem showFrom_returns_at_quit (self : Impl) (pt : Point) (w : World σ)
    (pre : List SDL_Event) (q : SDL_Event) (post : List SDL_Event) (fuel : Nat)
    (hpre : ∀ e ∈ pre, e.type ≠ SDL_QUIT) (hq : q.type = SDL_QUIT)
    (hqueue : w.queue = pre ++ q :: post) (hfuel : pre.length + 3 ≤ fuel) :
    ∃ w1 ok t1 t, Window.showFrom env self fuel pt w = .returned w1 ∧
      w1.trace = w.trace ++ (remainderCalls self ok t1 pt ++ loopHeadCalls t pt ++
        drainCalls pre ++ [.SDL_PollEvent (some q)]) := by
  obtain ⟨fuel, rfl⟩ : ∃ n, fuel = n + 1 := ⟨fuel - 1, by omega⟩
  by_cases hpt : pt = .loopHead
  · subst hpt
    obtain ⟨w1, hrun, htr⟩ := show_returns_at_quit env self w pre q post (fuel + 1) hpre hq
      hqueue (by omega)
    exact ⟨w1, true, 0, _, hrun, by simpa [remainderCalls, loopHeadCalls] using htr⟩
  by_cases hpt2 : ∃ t, pt = .polling t
  · obtain ⟨t, rfl⟩ := hpt2
    obtain ⟨w1, arr, hrun, htr, _, _⟩ := pollLoop_quit env pre fuel w q post hpre hq hqueue
      (by omega)
    refine ⟨w1, true, 0, 0, ?_, by simpa [remainderCalls, loopHeadCalls] using htr⟩
    simp only [Window.showFrom, finishIteration, drainThenFrame, hrun]
  · obtain ⟨w2, ok, t1, arr, hfin, hg⟩ := finishIteration_grows env self fuel pt w hpt
      (fun t h => hpt2 ⟨t, h⟩)
    obtain ⟨gtr, gqu, _⟩ := hg
    obtain ⟨w1, hrun, htr⟩ := show_returns_at_quit env self w2 pre q (post ++ arr) fuel hpre hq
      (by rw [gqu, hqueue]; simp) (by omega)
    refine ⟨w1, ok, t1, (env.milliseconds w2.ext).1, ?_, ?_⟩
    · simp only [Window.showFrom, hfin]
      exact hrun
    · rw [htr, gtr]
      cases pt with
      | loopHead => exact absurd rfl hpt
      | polling t => exact absurd ⟨t, rfl⟩ hpt2
      | afterInputUpdate t => simp [loopHeadCalls]
      | afterUpdate t => simp [loopHeadCalls]
      | afterDraw t => simp [loopHeadCalls]

/-- C2: `close()` appends one quit event to the platform queue, and wherever in a running
`show()` it is invoked (at the loop head, inside the inner loop, after `Input::update`, after
`update()`, after `draw()`), whatever is pushed behind it before control is back in `show`,
`show` returns: the calls it still makes are the rest of the current iteration, the clock
read of the next loop head, and one run of the inner loop that feeds the events queued before
the first quit event and then polls it.  `update()` is called at most once in the rest of the
current iteration and not at all afterwards. -/
theorem C2_close_terminates (self : Impl) (pt : Point) (w : World σ) (uninitialised : Nat)
    (later : List SDL_Event) (fuel : Nat) (hfuel : w.queue.length + 3 ≤ fuel) :
    (Window.close uninitialised w).queue =
      w.queue ++ [{ type := SDL_QUIT, data := uninitialised }] ∧
    ∃ w1 ok t1 t pre q,
      Window.showFrom env self fuel pt ((Window.close uninitialised w).enqueue later) =
        .returned w1 ∧
      w1.trace = w.trace ++ (remainderCalls self ok t1 pt ++ loopHeadCalls t pt ++
        drainCalls pre ++ [.SDL_PollEvent (some q)]) ∧
      q.type = SDL_QUIT ∧ (∀ e ∈ pre, e.type ≠ SDL_QUIT) ∧ pre.length ≤ w.queue.length ∧
      (remainderCalls self ok t1 pt).count .update ≤ 1 ∧
      (loopHeadCalls t pt ++ drainCalls pre ++ [Call.SDL_PollEvent (some q)]).count .update = 0 ∧
      swaps (loopHeadCalls t pt ++ drainCalls pre ++ [Call.SDL_PollEvent (some q)]) = [] := by
  refine ⟨by simp [Window.close, World.enqueue], ?_⟩
  obtain ⟨pre, q, post, hsplit, hpre, hq, hlen⟩ :=
    first_quit w.queue { type := SDL_QUIT, data := uninitialised } later rfl
  obtain ⟨w1, ok, t1, t, hrun, htr⟩ := showFrom_returns_at_quit env self pt
    ((Window.close uninitialised w).enqueue later) pre q post fuel hpre hq
    (by simpa [Window.close, World.enqueue] using hsplit) (by omega)
  refine ⟨w1, ok, t1, t, pre, q, hrun, ?_, hq, hpre, hlen,
    count_update_remainderCalls self ok t1 pt, count_update_drain t pt pre q, ?_⟩
  · simpa [Window.close, World.enqueue] using htr
  · cases pt <;> simp [loopHeadCalls, swaps_append, swaps_drainCalls, swaps]

end Close

end Gosu

/-! ## The theorems at sample inputs -/

namespace Gosu

/-- C1 at a queue holding a key event, a quit event and a mouse event. -/
theorem C1_quit_event_returns_witness :
    (∀ e ∈ [keyEvent], e.type ≠ SDL_QUIT) ∧ quitEvent.type = SDL_QUIT ∧
    (sampleWorld 100 [keyEvent, quitEvent, mouseEvent]).queue =
      [keyEvent] ++ quitEvent :: [mouseEvent] ∧
    [keyEvent].length + 2 ≤ 3 ∧
    ∃ w1 arr,
      Window.show (tickingEnv 5 true) sampleImpl 3
        (sampleWorld 100 [keyEvent, quitEvent, mouseEvent]) = .returned w1 ∧
      w1.trace = (sampleWorld 100 [keyEvent, quitEvent, mouseEvent]).trace ++
        ([.milliseconds
            ((tickingEnv 5 true).milliseconds
              (sampleWorld 100 [keyEvent, quitEvent, mouseEvent]).ext).1] ++
          drainCalls [keyEvent] ++ [.SDL_PollEvent (some quitEvent)]) ∧
      fedEvents w1.trace =
        fedEvents (sampleWorld 100 [keyEvent, quitEvent, mouseEvent]).trace ++ [keyEvent] ∧
      w1.trace.filter Call.isFrameCall =
        (sampleWorld 100 [keyEvent, quitEvent, mouseEvent]).trace.filter Call.isFrameCall ∧
      w1.queue = [mouseEvent] ++ arr ∧
      w1.pushed = (sampleWorld 100 [keyEvent, quitEvent, mouseEvent]).pushed ++ arr :=
  ⟨by decide, rfl, rfl, by decide,
    C1_quit_event_returns (tickingEnv 5 true) sampleImpl
      (sampleWorld 100 [keyEvent, quitEvent, mouseEvent]) [keyEvent] quitEvent [mouseEvent] 3
      (by decide) rfl rfl (by decide)⟩

/-- The run of C1 at the sample input, evaluated. -/
theorem show_quit_example :
    Window.show (tickingEnv 5 true) sampleImpl 3
        (sampleWorld 100 [keyEvent, quitEvent, mouseEvent]) =
      .returned { ext := 105, queue := [mouseEvent], pushed := [],
                  trace := [.milliseconds 100, .SDL_PollEvent (some keyEvent),
                    .feedSDLEvent keyEvent, .SDL_PollEvent (some quitEvent)] } := by
  decide

/-- C2 at a point after `update()` with a key event queued: `close()` is called there. -/
theorem C2_close_terminates_witness :
    (sampleWorld 100 [keyEvent]).queue.length + 3 ≤ 4 ∧
    ((Window.close 0 (sampleWorld 100 [keyEvent])).queue =
      (sampleWorld 100 [keyEvent]).queue ++ [{ type := SDL_QUIT, data := 0 }] ∧
    ∃ w1 ok t1 t pre q,
      Window.showFrom (tickingEnv 5 true) sampleImpl 4 (.afterUpdate 95)
          ((Window.close 0 (sampleWorld 100 [keyEvent])).enqueue [mouseEvent]) =
        .returned w1 ∧
      w1.trace = (sampleWorld 100 [keyEvent]).trace ++
        (remainderCalls sampleImpl ok t1 (.afterUpdate 95) ++
          loopHeadCalls t (.afterUpdate 95) ++ drainCalls pre ++
          [.SDL_PollEvent (some q)]) ∧
      q.type = SDL_QUIT ∧ (∀ e ∈ pre, e.type ≠ SDL_QUIT) ∧
      pre.length ≤ (sampleWorld 100 [keyEvent]).queue.length ∧
      (remainderCalls sampleImpl ok t1 (.afterUpdate 95)).count .update ≤ 1 ∧
      (loopHeadCalls t (.afterUpdate 95) ++ drainCalls pre ++
        [Call.SDL_PollEvent (some q)]).count .update = 0 ∧
      swaps (loopHeadCalls t (.afterUpdate 95) ++ drainCalls pre ++
        [Call.SDL_PollEvent (some q)]) = []) :=
  ⟨by decide,
    C2_close_terminates (tickingEnv 5 true) sampleImpl (.afterUpdate 95)
      (sampleWorld 100 [keyEvent]) 0 [mouseEvent] 4 (by decide)⟩

/-- A run in which `update()` calls `close()` in the first iteration: the iteration is
finished, and the inner loop of the second iteration returns; `update()` ran once. -/
theorem show_close_from_update_example :
    Window.show closingEnv sampleImpl 3 (sampleWorld 100 [keyEvent]) =
      .returned { ext := 126, queue := [], pushed := [quitEvent],
                  trace := [.milliseconds 100, .SDL_PollEvent (some keyEvent),
                    .feedSDLEvent keyEvent, .SDL_PollEvent none, .inputUpdate, .update,
                    .graphicsBegin true, .draw, .graphicsEnd, .SDL_GL_SwapWindow 1,
                    .milliseconds 105, .sleep 11, .milliseconds 121,
                    .SDL_PollEvent (some quitEvent)] } := by
  decide!

/-- C3 at an iteration in which `begin()` fails. -/
theorem C3_begin_gates_draw_witness :
    pollLoop (tickingEnv 5 false) 2
        (milliseconds (tickingEnv 5 false) (sampleWorld 100 [keyEvent])).2 =
      .continues (sampleDrained 5) ∧
    ∃ w2 new ok,
      iteration (tickingEnv 5 false) sampleImpl 2 (sampleWorld 100 [keyEvent]) =
        .continues w2 ∧
      Window.show (tickingEnv 5 false) sampleImpl (2 + 1) (sampleWorld 100 [keyEvent]) =
        Window.show (tickingEnv 5 false) sampleImpl 2 w2 ∧
      w2.trace = (sampleWorld 100 [keyEvent]).trace ++ new ∧ begins new = [ok] ∧
      swaps new = [sampleImpl.window] ∧
      (ok = false → new.count .draw = 0 ∧ new.count .graphicsEnd = 0) ∧
      (ok = true → new.count .draw = 1 ∧ new.count .graphicsEnd = 1 ∧
        ∃ a b, new = a ++ [.draw, .graphicsEnd, .SDL_GL_SwapWindow sampleImpl.window] ++ b) :=
  ⟨by decide,
    C3_begin_gates_draw (tickingEnv 5 false) sampleImpl 2 (sampleWorld 100 [keyEvent])
      (sampleDrained 5) (by decide)⟩

/-- The iteration of C3 at the sample input, evaluated: no `draw`, no `end`, one swap. -/
theorem iteration_begin_fails_example :
    iteration (tickingEnv 5 false) sampleImpl 2 (sampleWorld 100 [keyEvent]) =
      .continues { ext := 121, queue := [], pushed := [],
                   trace := [.milliseconds 100, .SDL_PollEvent (some keyEvent),
                     .feedSDLEvent keyEvent, .SDL_PollEvent none, .inputUpdate, .update,
                     .graphicsBegin false, .SDL_GL_SwapWindow 1, .milliseconds 105,
                     .sleep 11] } := by
  decide!

/-- C4 at an iteration that takes 5 ms with a 16 ms interval. -/
theorem C4_frame_pacing_witness :
    pollLoop (tickingEnv 5 true) 2
        (milliseconds (tickingEnv 5 true) (sampleWorld 100 [keyEvent])).2 =
      .continues (sampleDrained 5) ∧
    ∃ w2 body t1,
      iteration (tickingEnv 5 true) sampleImpl 2 (sampleWorld 100 [keyEvent]) =
        .continues w2 ∧
      w2.trace = (sampleWorld 100 [keyEvent]).trace ++
        ([Call.milliseconds ((tickingEnv 5 true).milliseconds
            (sampleWorld 100 [keyEvent]).ext).1] ++ body ++
          [.SDL_GL_SwapWindow sampleImpl.window, .milliseconds t1] ++
          (if 0 < t1 - ((tickingEnv 5 true).milliseconds (sampleWorld 100 [keyEvent]).ext).1 ∧
              ((t1 - ((tickingEnv 5 true).milliseconds
                (sampleWorld 100 [keyEvent]).ext).1 : Int) : ℚ) < sampleImpl.updateInterval then
            [.sleep (sampleImpl.updateInterval -
              ((t1 - ((tickingEnv 5 true).milliseconds
                (sampleWorld 100 [keyEvent]).ext).1 : Int) : ℚ))]
          else [])) ∧
      clockReadings body = [] ∧ sleeps body = [] ∧ swaps body = [] ∧
      sleeps w2.trace = sleeps (sampleWorld 100 [keyEvent]).trace ++
        (if 0 < t1 - ((tickingEnv 5 true).milliseconds (sampleWorld 100 [keyEvent]).ext).1 ∧
            ((t1 - ((tickingEnv 5 true).milliseconds
              (sampleWorld 100 [keyEvent]).ext).1 : Int) : ℚ) < sampleImpl.updateInterval then
          [sampleImpl.updateInterval -
            ((t1 - ((tickingEnv 5 true).milliseconds
              (sampleWorld 100 [keyEvent]).ext).1 : Int) : ℚ)]
        else []) ∧
      (sampleImpl.updateInterval = 16 →
        t1 - ((tickingEnv 5 true).milliseconds (sampleWorld 100 [keyEvent]).ext).1 = 5 →
        sleeps w2.trace = sleeps (sampleWorld 100 [keyEvent]).trace ++ [11]) ∧
      (sampleImpl.updateInterval ≤
          ((t1 - ((tickingEnv 5 true).milliseconds
            (sampleWorld 100 [keyEvent]).ext).1 : Int) : ℚ) →
        sleeps w2.trace = sleeps (sampleWorld 100 [keyEvent]).trace) :=
  ⟨by decide,
    C4_frame_pacing (tickingEnv 5 true) sampleImpl 2 (sampleWorld 100 [keyEvent])
      (sampleDrained 5) (by decide)⟩

/-- The two iterations of the specification, evaluated: with a 16 ms interval an iteration
that takes 5 ms sleeps 11 ms, an iteration that takes 20 ms does not sleep. -/
theorem iteration_pacing_example :
    sleeps (iteration (tickingEnv 5 true) sampleImpl 2
      (sampleWorld 100 [keyEvent])).world.trace = [11] ∧
    sleeps (iteration (tickingEnv 20 true) sampleImpl 2
      (sampleWorld 100 [keyEvent])).world.trace = [] := by
  decide!

/-- C9 at a window with a zero update interval. -/
theorem C9_nonpositive_interval_never_sleeps_witness :
    unpacedImpl.updateInterval ≤ 0 ∧
    (sleeps (Window.show (tickingEnv 5 true) unpacedImpl 4
        (sampleWorld 100 [keyEvent])).world.trace = sleeps (sampleWorld 100 [keyEvent]).trace ∧
      ∀ pt : Point, sleeps (Window.showFrom (tickingEnv 5 true) unpacedImpl 4 pt
        (sampleWorld 100 [keyEvent])).world.trace = sleeps (sampleWorld 100 [keyEvent]).trace) :=
  ⟨by decide,
    C9_nonpositive_interval_never_sleeps (tickingEnv 5 true) unpacedImpl (by decide) 4
      (sampleWorld 100 [keyEvent])⟩

/-- C8 at the sample window. -/
theorem C8_destruction_order_witness :
    Window.destructor sampleImpl [] =
      [.SDL_GL_DeleteContext 2, .SDL_DestroyWindow 1, .SDL_QuitSubSystem SDL_INIT_VIDEO] :=
  (C8_destruction_order sampleImpl []).1

/-- C10 at an iteration that feeds one key event, and at a run of three iterations. -/
theorem C10_iteration_order_witness :
    pollLoop (tickingEnv 5 true) 2
        (milliseconds (tickingEnv 5 true) (sampleWorld 100 [keyEvent])).2 =
      .continues (sampleDrained 5) ∧
    (∃ w2 fed arr ok t1 slept,
      iteration (tickingEnv 5 true) sampleImpl 2 (sampleWorld 100 [keyEvent]) =
        .continues w2 ∧
      w2.trace = (sampleWorld 100 [keyEvent]).trace ++
        iterationCalls sampleImpl.window
          ((tickingEnv 5 true).milliseconds (sampleWorld 100 [keyEvent]).ext).1
          fed ok t1 slept ∧
      (∀ e ∈ fed, e.type ≠ SDL_QUIT) ∧ fed = (sampleWorld 100 [keyEvent]).queue ++ arr ∧
      (sampleDrained 5).pushed = (sampleWorld 100 [keyEvent]).pushed ++ arr ∧
      (sampleDrained 5).queue = []) ∧
    ∃ blocks tail,
      (Window.show (tickingEnv 5 true) sampleImpl 3 (sampleWorld 100 [keyEvent])).world.trace =
        (sampleWorld 100 [keyEvent]).trace ++ runCalls blocks tail ∧
      (∀ blk ∈ blocks, IsIterationBlock sampleImpl.window blk) ∧
      tail.filter Call.isFrameCall = [] :=
  ⟨by decide,
    (C10_iteration_order (tickingEnv 5 true) sampleImpl).1 2 (sampleWorld 100 [keyEvent])
      (sampleDrained 5) (by decide),
    (C10_iteration_order (tickingEnv 5 true) sampleImpl).2.2 3 (sampleWorld 100 [keyEvent])⟩

end Gosu
